import Mathlib

/-!
Verification of the Haiku UVC webcam driver against its specification.

Each section embeds one component of the driver as executable Lean
definitions translated from the C++ source, and proves (or refutes) the
claims of the specification about that component.

Component map:
  - UVC payload deframer        (src/addons/uvc/UVCDeframer.cpp)
  - isochronous data pump       (src/CamDevice.cpp, DataPumpThread)
  - probe/commit negotiation    (src/addons/uvc/UVCCamDevice.cpp, _ProbeCommitFormat)
  - alternate-setting selection (src/addons/uvc/UVCCamDevice.cpp, _SelectBestAlternate)
  - YUY2 to BGRA converter      (src/addons/uvc/UVCCamDevice.cpp, _ConvertYUY2toRGB32)
  - audio ring buffer           (src/addons/uvc/UVCCamDevice.cpp, AudioPumpThread / ReadAudioData)
-/

namespace HaikuUVC

/-- Result of a Write call: B_ERROR, or the count of bytes consumed
(the source returns ssize_t, negative on error). -/
inductive WriteResult where
  | error : WriteResult
  | ok : Nat → WriteResult
deriving DecidableEq, Repr

/-- CAMDEFRAMER_MAX_QUEUED_FRAMES from src/CamDeframer.h line 18. -/
def MAXFRAMEBUF : Nat := 8

/-- Size of the fixed YUY2 assembly buffer allocated in the UVCDeframer
constructor (4 * 1024 * 1024 bytes). -/
def FIXED_BUFFER_SIZE : Nat := 4 * 1024 * 1024

/-- State of a UVCDeframer (fields of UVCDeframer plus the CamDeframer base
that UVCDeframer::Write touches).  The fixed buffer is modelled by the list
of its first fFixedBufferPos bytes, so fFixedBufferPos is fixedBuf.length.
A frame (CamFrame, a BMallocIO) is modelled by its byte contents; every
frame the deframer owns has position 0, so a Write into it overwrites from
offset 0.  The model assumes the constructor's malloc succeeded
(fFixedBuffer is non-NULL), as every claim does. -/
structure DeframerState where
  fID : Nat
  fExpectedFrameSize : Nat
  fixedBuf : List Nat
  inputBuf : List Nat
  currentFrame : Option (List Nat)
  frames : List (List Nat)
  frameCount : Nat
  framesCompleted : Nat
  framesIncomplete : Nat
  fidChanges : Nat
  queueOverflows : Nat
  packetsThisFrame : Nat
  totalBytesThisFrame : Nat
deriving DecidableEq, Repr

/-- State after the CamDeframer / UVCDeframer constructors: all counters
zero, empty buffers, and fCurrentFrame holding a fresh empty frame
(CamDeframer's constructor calls AllocFrame()). -/
def initDeframer : DeframerState :=
  { fID := 0
    fExpectedFrameSize := 0
    fixedBuf := []
    inputBuf := []
    currentFrame := some []
    frames := []
    frameCount := 0
    framesCompleted := 0
    framesIncomplete := 0
    fidChanges := 0
    queueOverflows := 0
    packetsThisFrame := 0
    totalBytesThisFrame := 0 }

/-- UVCDeframer::SetExpectedFrameSize. -/
def setExpectedFrameSize (s : DeframerState) (size : Nat) : DeframerState :=
  { s with fExpectedFrameSize := size }

/-- BMallocIO::Write at position 0: the data overwrites the prefix of the
existing contents and extends them if it is longer.  Every frame the
deframer writes into has position 0 (AllocFrame seeks recycled frames back
to 0 and fresh frames start there). -/
def frameWriteAt0 (content data : List Nat) : List Nat :=
  data ++ content.drop data.length

/-- Padding pattern for short YUY2 frames: two black pixels (Y=0, U=128,
Y=0, V=128), UVCDeframer.cpp line 332. -/
def padPattern : List Nat := [0x00, 0x80, 0x00, 0x80]

/-- Padding loop of UVCDeframer.cpp lines 333-338: while the fill is short
of the expected size, append up to 4 bytes of the pattern.  The fuel
argument bounds the iteration count structurally; each iteration grows
the buffer by at least one byte, so expected iterations always suffice. -/
def applyPaddingAux : Nat → List Nat → Nat → List Nat
  | 0, buf, _ => buf
  | fuel + 1, buf, expected =>
    if buf.length < expected then
      let remaining := expected - buf.length
      let toWrite := min remaining 4
      applyPaddingAux fuel (buf ++ padPattern.take toWrite) expected
    else buf

/-- Padding entry point: the loop never needs more than expected
iterations. -/
def applyPadding (buf : List Nat) (expected : Nat) : List Nat :=
  applyPaddingAux expected buf expected

/-- First n bytes of the infinitely repeated pad pattern. -/
def patternFill (n : Nat) : List Nat :=
  (List.range n).map (fun j => padPattern.getD (j % 4) 0)

/-- FID-change block of UVCDeframer::Write (lines 163-237): bump the FID
counter, adopt the new FID bit, complete the previous MJPEG frame when the
input buffer holds data (with queue-overflow accounting), and reset the
per-frame assembly state. -/
def fidChangeBlock (s : DeframerState) (fidBit : Nat) : DeframerState :=
  let sA := { s with fidChanges := s.fidChanges + 1, fID := fidBit }
  let sB :=
    if sA.fExpectedFrameSize = 0 ∧ 0 < sA.inputBuf.length then
      let queueCount := sA.frames.length
      let sC :=
        if MAXFRAMEBUF ≤ queueCount then
          { sA with queueOverflows := sA.queueOverflows + 1 }
        else sA
      let sD :=
        if sC.currentFrame = none ∧ queueCount < MAXFRAMEBUF then
          { sC with currentFrame := some [] }
        else sC
      match sD.currentFrame with
      | some content =>
          { sD with
            frameCount := sD.frameCount + 1
            framesCompleted := sD.framesCompleted + 1
            frames := sD.frames ++ [frameWriteAt0 content sD.inputBuf]
            currentFrame := none }
      | none => sD
    else sA
  { sB with
    inputBuf := []
    fixedBuf := []
    packetsThisFrame := 1
    totalBytesThisFrame := 0 }

/-- Truncation of UVCDeframer::Write lines 263-277: in fixed-size (YUY2)
mode clip the payload to the space left before expected_frame_size. -/
def bytesToWriteFor (s : DeframerState) (payloadSize : Nat) : Nat :=
  if 0 < s.fExpectedFrameSize then
    let currentSize := s.fixedBuf.length
    let spaceLeft :=
      if currentSize < s.fExpectedFrameSize then s.fExpectedFrameSize - currentSize
      else 0
    if spaceLeft < payloadSize then spaceLeft else payloadSize
  else payloadSize

/-- Payload write of UVCDeframer::Write lines 280-298: append the clipped
payload to the fixed buffer unless that would run past its capacity. -/
def appendToFixed (s : DeframerState) (payload : List Nat) (bytesToWrite : Nat) :
    DeframerState :=
  if 0 < bytesToWrite ∧ s.fixedBuf.length + bytesToWrite ≤ FIXED_BUFFER_SIZE then
    { s with fixedBuf := s.fixedBuf ++ payload.take bytesToWrite }
  else s

/-- Frame-completion decision of UVCDeframer::Write lines 300-358, applied
to the state right after the payload write: complete by EOF or by reaching
the expected size in fixed-size mode, by EOF alone (unless the frame was
already completed by the FID change) in MJPEG mode. -/
def frameCompleteFor (s : DeframerState) (eof fidChanged : Bool) : Bool :=
  if 0 < s.fExpectedFrameSize then
    if eof then true
    else decide (s.fExpectedFrameSize ≤ s.fixedBuf.length)
  else eof && !fidChanged

/-- Padding step of UVCDeframer::Write lines 321-339: on EOF in fixed-size
mode with a short fill, pad the fixed buffer up to the expected size. -/
def applyEofPadding (s : DeframerState) (eof : Bool) : DeframerState :=
  if 0 < s.fExpectedFrameSize ∧ eof = true ∧ s.fixedBuf.length < s.fExpectedFrameSize then
    { s with fixedBuf := applyPadding s.fixedBuf s.fExpectedFrameSize }
  else s

/-- Frame publication of UVCDeframer::Write lines 360-436: pick the frame
data (fixed buffer in YUY2 mode, BMallocIO input buffer in MJPEG mode),
count an incomplete frame, write the data into the current frame, enqueue
it and reset the assembly state. -/
def publishFrame (s : DeframerState) : DeframerState :=
  let frameData := if 0 < s.fExpectedFrameSize then s.fixedBuf else s.inputBuf
  let s1 := { s with
    frameCount := s.frameCount + 1
    framesCompleted := s.framesCompleted + 1 }
  let s2 :=
    if 0 < s1.fExpectedFrameSize ∧ frameData.length < s1.fExpectedFrameSize then
      { s1 with framesIncomplete := s1.framesIncomplete + 1 }
    else s1
  let content := s2.currentFrame.getD []
  let content1 := if 0 < frameData.length then frameWriteAt0 content frameData else content
  { s2 with
    frames := s2.frames ++ [content1]
    currentFrame := none
    inputBuf := []
    fixedBuf := []
    packetsThisFrame := 0 }

/-- Tail of UVCDeframer::Write (lines 250-453), reached once a current
frame is held: account the payload, append it (clipped) to the fixed
buffer, pad on EOF, and publish if the frame is complete. -/
def uvcWriteTail (s2 : DeframerState) (pkt : List Nat) (eof fidChanged : Bool) :
    DeframerState × WriteResult :=
  let hlen := pkt.getD 0 0
  let payloadSize := pkt.length - hlen
  let s3 := { s2 with totalBytesThisFrame := s2.totalBytesThisFrame + payloadSize }
  let s4 := appendToFixed s3 (pkt.drop hlen) (bytesToWriteFor s3 payloadSize)
  let s5 := applyEofPadding s4 eof
  if frameCompleteFor s4 eof fidChanged then (publishFrame s5, WriteResult.ok pkt.length)
  else (s5, WriteResult.ok pkt.length)

/-- Body of UVCDeframer::Write (lines 157-453) for a well-formed packet
with a non-empty payload: FID-change handling, frame allocation with the
bounded-queue drop path, then the assembly tail. -/
def uvcWriteBody (s : DeframerState) (pkt : List Nat) : DeframerState × WriteResult :=
  let flags := pkt.getD 1 0
  let eof := Nat.testBit flags 1
  let fidBit := flags % 2
  let fidChanged := fidBit != s.fID
  let s1 := if fidChanged then fidChangeBlock s fidBit else s
  if s1.currentFrame = none ∧ MAXFRAMEBUF ≤ s1.frames.length then
    ({ s1 with queueOverflows := s1.queueOverflows + 1 }, WriteResult.ok pkt.length)
  else
    let s2 :=
      if s1.currentFrame = none then { s1 with currentFrame := some [] } else s1
    uvcWriteTail s2 pkt eof fidChanged

/-- UVCDeframer::Write (UVCDeframer.cpp lines 111-453).  The packet is the
byte sequence of one USB payload packet.  Static log-throttle counters and
syslog calls have no bearing on the state and are not modelled. -/
def uvcWrite (s0 : DeframerState) (pkt : List Nat) : DeframerState × WriteResult :=
  let s := { s0 with packetsThisFrame := s0.packetsThisFrame + 1 }
  if pkt.length < 2 ∨ pkt.getD 0 0 < 2 ∨ pkt.length < pkt.getD 0 0 then
    (s, WriteResult.error)
  else if pkt.length - pkt.getD 0 0 = 0 then
    (s, WriteResult.ok pkt.length)
  else
    uvcWriteBody s pkt

/-- CamDeframer::GetFrame: removes and returns the oldest queued frame. -/
def getFrame (s : DeframerState) : DeframerState × Option (List Nat) :=
  match s.frames with
  | [] => (s, none)
  | f :: rest => ({ s with frames := rest }, some f)

/-- UVCDeframer::Flush on top of CamDeframer::Flush: clears the queue,
empties the current frame if present, resets the input buffer, the fixed
buffer position and the UVC parsing state. -/
def flushDeframer (s : DeframerState) : DeframerState :=
  { s with
    frames := []
    currentFrame := s.currentFrame.map (fun _ => [])
    inputBuf := []
    fixedBuf := []
    fID := 0
    packetsThisFrame := 0 }

/-! Helper lemmas about the padding loop. -/

theorem patternFill_length (n : Nat) : (patternFill n).length = n := by
  simp [patternFill]

theorem patternFill_zero : patternFill 0 = [] := by
  simp [patternFill]

theorem patternFill_step (m : Nat) (hm : 0 < m) :
    padPattern.take (min m 4) ++ patternFill (m - min m 4) = patternFill m := by
  rcases le_or_lt m 4 with h4 | h4
  · have hmin : min m 4 = m := by omega
    rw [hmin, Nat.sub_self, patternFill_zero, List.append_nil]
    interval_cases m <;> decide
  · have hmin : min m 4 = 4 := by omega
    have hsplit : m = 4 + (m - 4) := by omega
    rw [hmin]
    conv_rhs => rw [hsplit]
    simp only [patternFill, List.range_add, List.map_append, List.map_map]
    congr 1
    refine List.map_congr_left fun j hj => ?_
    simp only [Function.comp_apply]
    congr 1
    omega

theorem applyPaddingAux_spec (fuel : Nat) :
    ∀ (buf : List Nat) (expected : Nat), expected - buf.length ≤ fuel →
      applyPaddingAux fuel buf expected = buf ++ patternFill (expected - buf.length) := by
  induction fuel with
  | zero =>
    intro buf expected h
    have : expected - buf.length = 0 := by omega
    simp [applyPaddingAux, this, patternFill_zero]
  | succ fuel ih =>
    intro buf expected h
    by_cases hlt : buf.length < expected
    · have hrem : 0 < expected - buf.length := by omega
      have htw : (padPattern.take (min (expected - buf.length) 4)).length
          = min (expected - buf.length) 4 := by
        simp [padPattern]
      rw [applyPaddingAux, if_pos hlt]
      rw [ih _ _ (by simp only [List.length_append, htw]; omega)]
      rw [List.append_assoc]
      congr 1
      have : expected - (buf ++ padPattern.take (min (expected - buf.length) 4)).length
          = expected - buf.length - min (expected - buf.length) 4 := by
        simp only [List.length_append, htw]
        omega
      rw [this]
      exact patternFill_step _ hrem
    · rw [applyPaddingAux, if_neg hlt]
      have : expected - buf.length = 0 := by omega
      simp [this, patternFill_zero]

theorem applyPadding_spec (buf : List Nat) (expected : Nat) :
    applyPadding buf expected = buf ++ patternFill (expected - buf.length) :=
  applyPaddingAux_spec expected buf expected (by omega)

theorem applyPadding_length (buf : List Nat) (expected : Nat) :
    (applyPadding buf expected).length = max buf.length expected := by
  rw [applyPadding_spec]
  simp [patternFill_length]
  omega

/-! Structural lemmas about the Write sub-blocks. -/

theorem fidChangeBlock_no_mjpeg (s : DeframerState) (b : Nat)
    (h : 0 < s.fExpectedFrameSize ∨ s.inputBuf = []) :
    fidChangeBlock s b =
      { s with
        fidChanges := s.fidChanges + 1
        fID := b
        inputBuf := []
        fixedBuf := []
        packetsThisFrame := 1
        totalBytesThisFrame := 0 } := by
  have hcond : ¬(s.fExpectedFrameSize = 0 ∧ 0 < s.inputBuf.length) := by
    rcases h with h | h
    · omega
    · simp [h]
  simp only [fidChangeBlock, if_neg hcond]

theorem append_clip (s : DeframerState) (payload : List Nat)
    (hE : 0 < s.fExpectedFrameSize)
    (hEcap : s.fExpectedFrameSize ≤ FIXED_BUFFER_SIZE)
    (hfill : s.fixedBuf.length ≤ s.fExpectedFrameSize) :
    appendToFixed s payload (bytesToWriteFor s payload.length) =
      { s with fixedBuf :=
          s.fixedBuf ++ payload.take (s.fExpectedFrameSize - s.fixedBuf.length) } := by
  have hspace : (if s.fixedBuf.length < s.fExpectedFrameSize
      then s.fExpectedFrameSize - s.fixedBuf.length else 0)
      = s.fExpectedFrameSize - s.fixedBuf.length := by
    split <;> omega
  have hbtw : bytesToWriteFor s payload.length =
      min (s.fExpectedFrameSize - s.fixedBuf.length) payload.length := by
    simp only [bytesToWriteFor, if_pos hE, hspace]
    split <;> omega
  rw [hbtw]
  by_cases h0 : 0 < min (s.fExpectedFrameSize - s.fixedBuf.length) payload.length
  · have hcap : s.fixedBuf.length
        + min (s.fExpectedFrameSize - s.fixedBuf.length) payload.length
        ≤ FIXED_BUFFER_SIZE := by omega
    rw [appendToFixed, if_pos ⟨h0, hcap⟩]
    congr 1
    rcases le_or_lt payload.length (s.fExpectedFrameSize - s.fixedBuf.length) with hle | hlt
    · rw [min_eq_right hle, List.take_length, List.take_of_length_le hle]
    · rw [min_eq_left (le_of_lt hlt)]
  · have hmin : min (s.fExpectedFrameSize - s.fixedBuf.length) payload.length = 0 := by
      omega
    rw [hmin, appendToFixed, if_neg (by simp)]
    rcases Nat.min_eq_zero_iff.mp hmin with hz | hz
    · rw [hz, List.take_zero, List.append_nil]
    · have : payload = [] := List.eq_nil_of_length_eq_zero hz
      simp [this]

theorem frameWriteAt0_empty (data : List Nat) : frameWriteAt0 [] data = data := by
  simp [frameWriteAt0]

theorem uvcWriteTail_result (s2 : DeframerState) (pkt : List Nat) (eof fidChanged : Bool) :
    (uvcWriteTail s2 pkt eof fidChanged).2 = WriteResult.ok pkt.length := by
  simp only [uvcWriteTail]
  split <;> rfl

theorem uvcWriteBody_result (s : DeframerState) (pkt : List Nat) :
    (uvcWriteBody s pkt).2 = WriteResult.ok pkt.length := by
  simp only [uvcWriteBody]
  split <;> split <;> first | rfl | exact uvcWriteTail_result ..

/-! Claim C2: MJPEG FID-flip publication.

The specification says that in MJPEG mode a FID flip with a non-empty fill
publishes the accumulated payload bytes as one frame.  In the source,
UVCDeframer::Write stores every payload byte in the fixed buffer
(lines 279-298) while the FID-flip completion path (lines 200-229) and the
EOF completion path (lines 372-376) read the separate BMallocIO input
buffer, which no code path ever writes.  The FID-flip guard
fInputBuffer.BufferLength() > 0 is therefore always false and the accumulated
data is silently discarded. -/

/-- C2: running scenario S2 (MJPEG, FID flip after two payload packets)
through the deframer publishes no frame at all: after P3 the queue is
still empty, the P1/P2 payload sits in the fixed buffer, the input buffer
that the publish path reads stayed empty, and the fill was reset. -/
theorem c2_mjpeg_fid_flip_publishes_nothing :
    (uvcWrite (uvcWrite initDeframer [2, 1, 0xFF, 0xD8, 0xAA, 0xAA]).1
        [2, 1, 0xBB, 0xBB, 0xFF, 0xD9]).1.fixedBuf
      = [0xFF, 0xD8, 0xAA, 0xAA, 0xBB, 0xBB, 0xFF, 0xD9] ∧
    (uvcWrite (uvcWrite initDeframer [2, 1, 0xFF, 0xD8, 0xAA, 0xAA]).1
        [2, 1, 0xBB, 0xBB, 0xFF, 0xD9]).1.inputBuf = [] ∧
    (uvcWrite (uvcWrite (uvcWrite initDeframer [2, 1, 0xFF, 0xD8, 0xAA, 0xAA]).1
        [2, 1, 0xBB, 0xBB, 0xFF, 0xD9]).1 [2, 0, 0xFF, 0xD8]).1.frames = [] ∧
    (uvcWrite (uvcWrite (uvcWrite initDeframer [2, 1, 0xFF, 0xD8, 0xAA, 0xAA]).1
        [2, 1, 0xBB, 0xBB, 0xFF, 0xD9]).1 [2, 0, 0xFF, 0xD8]).1.framesCompleted = 0 ∧
    (uvcWrite (uvcWrite (uvcWrite initDeframer [2, 1, 0xFF, 0xD8, 0xAA, 0xAA]).1
        [2, 1, 0xBB, 0xBB, 0xFF, 0xD9]).1 [2, 0, 0xFF, 0xD8]).1.fixedBuf
      = [0xFF, 0xD8] := by
  decide

/-! Claim C5: malformed packets. -/

/-- C5 counterexample: the claim states that Write never propagates an
error to its caller for a malformed packet, but the source returns B_ERROR
(UVCDeframer.cpp line 127) for the one-byte packet [2]. -/
theorem c5_counterexample :
    (uvcWrite initDeframer [2]).2 = WriteResult.error := by
  decide

/-- C5 (amended): for every malformed packet (shorter than 2 bytes,
header_length below 2, or header_length exceeding the packet length) Write
returns B_ERROR — which the data pump ignores — and leaves the
frame-assembly state (fixed buffer, input buffer, current frame, ready
queue, overflow and completion counters) unchanged; on every non-error
path Write returns the full packet length. -/
theorem c5_malformed_write (s : DeframerState) (pkt : List Nat) :
    (pkt.length < 2 ∨ pkt.getD 0 0 < 2 ∨ pkt.length < pkt.getD 0 0 →
      (uvcWrite s pkt).2 = WriteResult.error ∧
      (uvcWrite s pkt).1.fixedBuf = s.fixedBuf ∧
      (uvcWrite s pkt).1.inputBuf = s.inputBuf ∧
      (uvcWrite s pkt).1.currentFrame = s.currentFrame ∧
      (uvcWrite s pkt).1.frames = s.frames ∧
      (uvcWrite s pkt).1.queueOverflows = s.queueOverflows ∧
      (uvcWrite s pkt).1.framesCompleted = s.framesCompleted) ∧
    ((uvcWrite s pkt).2 = WriteResult.error ∨
      (uvcWrite s pkt).2 = WriteResult.ok pkt.length) := by
  constructor
  · intro h
    simp only [uvcWrite, if_pos h]
    simp
  · simp only [uvcWrite]
    split_ifs <;> simp [uvcWriteBody_result]

/-- C5 witness: the malformed one-byte packet [2] at the initial state. -/
theorem c5_malformed_write_witness :
    (uvcWrite initDeframer [2]).2 = WriteResult.error ∧
    (uvcWrite initDeframer [2]).1.fixedBuf = initDeframer.fixedBuf ∧
    (uvcWrite initDeframer [2]).1.inputBuf = initDeframer.inputBuf ∧
    (uvcWrite initDeframer [2]).1.currentFrame = initDeframer.currentFrame ∧
    (uvcWrite initDeframer [2]).1.frames = initDeframer.frames ∧
    (uvcWrite initDeframer [2]).1.queueOverflows = initDeframer.queueOverflows ∧
    (uvcWrite initDeframer [2]).1.framesCompleted = initDeframer.framesCompleted :=
  (c5_malformed_write initDeframer [2]).1 (by decide)

/-! Claim C1: YUY2 fixed-size assembly. -/

theorem patternFill_append_length (l : List Nat) (E : Nat) (h : l.length ≤ E) :
    (l ++ patternFill (E - l.length)).length = E := by
  simp [patternFill_length]
  omega

theorem uvcWriteTail_yuy2 (s2 : DeframerState) (pkt : List Nat) (eof fidChanged : Bool)
    (hE : 0 < s2.fExpectedFrameSize)
    (hEcap : s2.fExpectedFrameSize ≤ FIXED_BUFFER_SIZE)
    (hfill : s2.fixedBuf.length ≤ s2.fExpectedFrameSize)
    (hcf : s2.currentFrame = some []) :
    let E := s2.fExpectedFrameSize
    let fill1 := s2.fixedBuf ++ (pkt.drop (pkt.getD 0 0)).take (E - s2.fixedBuf.length)
    let r := uvcWriteTail s2 pkt eof fidChanged
    fill1.length ≤ E ∧
    (if eof || decide (E ≤ fill1.length) then
        r.1.frames = s2.frames ++ [fill1 ++ patternFill (E - fill1.length)] ∧
        (fill1 ++ patternFill (E - fill1.length)).length = E ∧
        r.1.fixedBuf = [] ∧
        r.1.currentFrame = none
      else
        r.1.frames = s2.frames ∧
        r.1.fixedBuf = fill1 ∧
        r.1.currentFrame = some []) := by
  intro E fill1 r
  have hdroplen : (pkt.drop (pkt.getD 0 0)).length = pkt.length - pkt.getD 0 0 := by
    simp
  have hfill1 : fill1.length ≤ E := by
    simp only [fill1, List.length_append, List.length_take, hdroplen]
    omega
  refine ⟨hfill1, ?_⟩
  have hs4 : r = (let s5 := applyEofPadding { s2 with
        totalBytesThisFrame := s2.totalBytesThisFrame + (pkt.length - pkt.getD 0 0),
        fixedBuf := fill1 } eof;
      if frameCompleteFor { s2 with
        totalBytesThisFrame := s2.totalBytesThisFrame + (pkt.length - pkt.getD 0 0),
        fixedBuf := fill1 } eof fidChanged then (publishFrame s5, WriteResult.ok pkt.length)
      else (s5, WriteResult.ok pkt.length)) := by
    show uvcWriteTail s2 pkt eof fidChanged = _
    simp only [uvcWriteTail]
    rw [← hdroplen, append_clip]
    · exact hE
    · exact hEcap
    · exact hfill
  rw [hs4]
  have hEfill : s2.fExpectedFrameSize - fill1.length = E - fill1.length := rfl
  cases eof with
  | true =>
    by_cases hlt : fill1.length < s2.fExpectedFrameSize
    · have hpad := applyPadding_spec fill1 s2.fExpectedFrameSize
      simp only [Bool.true_or, if_true, frameCompleteFor, applyEofPadding, publishFrame,
        hE, if_pos, hlt, and_true, and_self, hcf, hpad]
      simp only [E] at hfill1 ⊢
      have hlen : (fill1 ++ patternFill (s2.fExpectedFrameSize - fill1.length)).length
          = s2.fExpectedFrameSize := patternFill_append_length _ _ (le_of_lt hlt)
      simp [hlen, frameWriteAt0, hE, hcf]
    · have hempty : s2.fExpectedFrameSize - fill1.length = 0 := by omega
      simp only [Bool.true_or, if_true, frameCompleteFor, applyEofPadding, publishFrame,
        hE, if_pos, hlt, and_false, and_true, hcf, hempty, patternFill_zero,
        List.append_nil]
      simp only [E] at hfill1 ⊢
      have hlenE : fill1.length = s2.fExpectedFrameSize := by omega
      simp [hlenE, frameWriteAt0, hE, hcf, hempty, patternFill_zero]
  | false =>
    by_cases hge : s2.fExpectedFrameSize ≤ fill1.length
    · have hempty : s2.fExpectedFrameSize - fill1.length = 0 := by omega
      simp only [Bool.false_or, frameCompleteFor, applyEofPadding, publishFrame,
        hE, if_pos, hcf, hempty, patternFill_zero, List.append_nil]
      simp only [E] at hfill1 ⊢
      have hlenE : fill1.length = s2.fExpectedFrameSize := by omega
      simp [hge, hlenE, frameWriteAt0, hE, hcf]
    · simp only [Bool.false_or, frameCompleteFor, applyEofPadding, hE, if_pos, hcf]
      simp only [E] at hfill1 ⊢
      simp [hge, hcf]



theorem uvcWriteBody_fid (s : DeframerState) (pkt : List Nat)
    (hE : 0 < s.fExpectedFrameSize)
    (hcf : s.currentFrame = some [])
    (hfid : (pkt.getD 1 0 % 2 != s.fID) = true) :
    uvcWriteBody s pkt =
      uvcWriteTail
        { s with
          fidChanges := s.fidChanges + 1
          fID := pkt.getD 1 0 % 2
          inputBuf := []
          fixedBuf := []
          packetsThisFrame := 1
          totalBytesThisFrame := 0 }
        pkt (Nat.testBit (pkt.getD 1 0) 1) true := by
  simp only [uvcWriteBody, hfid, if_true]
  rw [fidChangeBlock_no_mjpeg _ _ (Or.inl hE)]
  rw [if_neg (by simp [hcf]), if_neg (by simp [hcf])]

theorem uvcWriteBody_nofid (s : DeframerState) (pkt : List Nat)
    (hcf : s.currentFrame = some [])
    (hfid : (pkt.getD 1 0 % 2 != s.fID) = false) :
    uvcWriteBody s pkt = uvcWriteTail s pkt (Nat.testBit (pkt.getD 1 0) 1) false := by
  simp only [uvcWriteBody, hfid, Bool.false_eq_true, if_false]
  rw [if_neg (by simp [hcf]), if_neg (by simp [hcf])]

/-- C1 counterexample: the claim says a frame is published exactly when
the fill reaches expected_frame_size or a packet with the EOF flag
arrives.  A header-only EOF packet (header [2, 3]: length 2, EOF and FID
bits set) is a valid packet, yet Write returns at the header-only early
exit (UVCDeframer.cpp lines 133-134) before the EOF logic runs: with a
6-byte fill and expected size 16 nothing is published and the fill stays
at 6 bytes. -/
theorem c1_counterexample :
    Nat.testBit (([2, 3] : List Nat).getD 1 0) 1 = true ∧
    (uvcWrite (setExpectedFrameSize initDeframer 16)
        [2, 1, 1, 2, 3, 4, 5, 6]).1.fixedBuf.length = 6 ∧
    (uvcWrite (uvcWrite (setExpectedFrameSize initDeframer 16)
        [2, 1, 1, 2, 3, 4, 5, 6]).1 [2, 3]).1.frames = [] ∧
    (uvcWrite (uvcWrite (setExpectedFrameSize initDeframer 16)
        [2, 1, 1, 2, 3, 4, 5, 6]).1 [2, 3]).1.framesCompleted = 0 ∧
    (uvcWrite (uvcWrite (setExpectedFrameSize initDeframer 16)
        [2, 1, 1, 2, 3, 4, 5, 6]).1 [2, 3]).1.fixedBuf.length = 6 := by
  decide

/-- C1 (amended): in YUY2 fixed-size mode, for every valid packet that
carries payload, while a current frame buffer is held: after discarding
the fill on a FID flip and clipping the appended payload to
expected_frame_size, the deframer publishes exactly when the EOF flag is
set or the fill reaches expected_frame_size; a published frame is the
clipped fill padded to expected_frame_size with the repeating pattern
00 80 00 80, so its length is exactly expected_frame_size
(= negotiated_width * negotiated_height * 2); otherwise nothing is
published and the fill equals the clipped accumulation, never exceeding
expected_frame_size.  Header-only EOF packets (see the counterexample)
and packets arriving while the queue is saturated (claim C6) are the
exceptions the original claim missed. -/
theorem c1_yuy2_assembly (s : DeframerState) (pkt : List Nat)
    (hE : 0 < s.fExpectedFrameSize)
    (hEcap : s.fExpectedFrameSize ≤ FIXED_BUFFER_SIZE)
    (hfill : s.fixedBuf.length ≤ s.fExpectedFrameSize)
    (hcf : s.currentFrame = some [])
    (hh1 : 2 ≤ pkt.getD 0 0)
    (hh2 : pkt.getD 0 0 < pkt.length) :
    let E := s.fExpectedFrameSize
    let eof := Nat.testBit (pkt.getD 1 0) 1
    let fill0 := if (pkt.getD 1 0) % 2 != s.fID then ([] : List Nat) else s.fixedBuf
    let fill1 := fill0 ++ (pkt.drop (pkt.getD 0 0)).take (E - fill0.length)
    (uvcWrite s pkt).2 = WriteResult.ok pkt.length ∧
    fill1.length ≤ E ∧
    (if eof || decide (E ≤ fill1.length) then
        (uvcWrite s pkt).1.frames = s.frames ++ [fill1 ++ patternFill (E - fill1.length)] ∧
        (fill1 ++ patternFill (E - fill1.length)).length = E ∧
        (uvcWrite s pkt).1.fixedBuf = [] ∧
        (uvcWrite s pkt).1.currentFrame = none
      else
        (uvcWrite s pkt).1.frames = s.frames ∧
        (uvcWrite s pkt).1.fixedBuf = fill1 ∧
        (uvcWrite s pkt).1.currentFrame = some []) := by
  intro E eof fill0 fill1
  have hmal : ¬(pkt.length < 2 ∨ pkt.getD 0 0 < 2 ∨ pkt.length < pkt.getD 0 0) := by
    omega
  have hpay : ¬(pkt.length - pkt.getD 0 0 = 0) := by omega
  have hw : uvcWrite s pkt
      = uvcWriteBody { s with packetsThisFrame := s.packetsThisFrame + 1 } pkt := by
    simp only [uvcWrite, if_neg hmal, if_neg hpay]
  by_cases hfid : (pkt.getD 1 0 % 2 != s.fID) = true
  · have hbody := uvcWriteBody_fid
      { s with packetsThisFrame := s.packetsThisFrame + 1 } pkt hE hcf hfid
    have htail := uvcWriteTail_yuy2
      { s with
        fidChanges := s.fidChanges + 1
        fID := pkt.getD 1 0 % 2
        inputBuf := []
        fixedBuf := []
        packetsThisFrame := 1
        totalBytesThisFrame := 0 }
      pkt (Nat.testBit (pkt.getD 1 0) 1) true hE hEcap (by simp) hcf
    unfold_let fill1 fill0 E eof
    rw [if_pos hfid, hw, hbody]
    refine ⟨uvcWriteTail_result .., ?_, ?_⟩
    · simpa using htail.1
    · simpa using htail.2
  · have hfid0 : (pkt.getD 1 0 % 2 != s.fID) = false := by
      simpa using hfid
    have hbody := uvcWriteBody_nofid
      { s with packetsThisFrame := s.packetsThisFrame + 1 } pkt hcf hfid0
    have htail := uvcWriteTail_yuy2
      { s with packetsThisFrame := s.packetsThisFrame + 1 }
      pkt (Nat.testBit (pkt.getD 1 0) 1) false hE hEcap hfill hcf
    unfold_let fill1 fill0 E eof
    rw [if_neg hfid, hw, hbody]
    refine ⟨uvcWriteTail_result .., ?_, ?_⟩
    · simpa using htail.1
    · simpa using htail.2

/-- C1 witness: a fresh 16-byte-frame deframer receiving an EOF packet
with a 2-byte payload publishes one padded 16-byte frame. -/
theorem c1_yuy2_assembly_witness :
    let s := setExpectedFrameSize initDeframer 16
    let pkt : List Nat := [2, 3, 9, 9]
    let E := s.fExpectedFrameSize
    let eof := Nat.testBit (pkt.getD 1 0) 1
    let fill0 := if (pkt.getD 1 0) % 2 != s.fID then ([] : List Nat) else s.fixedBuf
    let fill1 := fill0 ++ (pkt.drop (pkt.getD 0 0)).take (E - fill0.length)
    (uvcWrite s pkt).2 = WriteResult.ok pkt.length ∧
    fill1.length ≤ E ∧
    (if eof || decide (E ≤ fill1.length) then
        (uvcWrite s pkt).1.frames = s.frames ++ [fill1 ++ patternFill (E - fill1.length)] ∧
        (fill1 ++ patternFill (E - fill1.length)).length = E ∧
        (uvcWrite s pkt).1.fixedBuf = [] ∧
        (uvcWrite s pkt).1.currentFrame = none
      else
        (uvcWrite s pkt).1.frames = s.frames ∧
        (uvcWrite s pkt).1.fixedBuf = fill1 ∧
        (uvcWrite s pkt).1.currentFrame = some []) :=
  c1_yuy2_assembly (setExpectedFrameSize initDeframer 16) [2, 3, 9, 9]
    (by decide) (by decide) (by decide) (by decide) (by decide) (by decide)

/-! Claim C6: bounded ready-frame queue. -/

theorem appendToFixed_frames (s : DeframerState) (p : List Nat) (b : Nat) :
    (appendToFixed s p b).frames = s.frames := by
  unfold appendToFixed
  split <;> rfl

theorem appendToFixed_currentFrame (s : DeframerState) (p : List Nat) (b : Nat) :
    (appendToFixed s p b).currentFrame = s.currentFrame := by
  unfold appendToFixed
  split <;> rfl

theorem appendToFixed_inputBuf (s : DeframerState) (p : List Nat) (b : Nat) :
    (appendToFixed s p b).inputBuf = s.inputBuf := by
  unfold appendToFixed
  split <;> rfl

theorem applyEofPadding_frames (s : DeframerState) (eof : Bool) :
    (applyEofPadding s eof).frames = s.frames := by
  unfold applyEofPadding
  split <;> rfl

theorem applyEofPadding_currentFrame (s : DeframerState) (eof : Bool) :
    (applyEofPadding s eof).currentFrame = s.currentFrame := by
  unfold applyEofPadding
  split <;> rfl

theorem applyEofPadding_inputBuf (s : DeframerState) (eof : Bool) :
    (applyEofPadding s eof).inputBuf = s.inputBuf := by
  unfold applyEofPadding
  split <;> rfl

theorem publishFrame_frames_length (s : DeframerState) :
    (publishFrame s).frames.length = s.frames.length + 1 := by
  simp only [publishFrame]
  split <;> split <;> simp

theorem publishFrame_currentFrame (s : DeframerState) :
    (publishFrame s).currentFrame = none := by
  simp only [publishFrame]

theorem publishFrame_inputBuf (s : DeframerState) :
    (publishFrame s).inputBuf = [] := by
  simp only [publishFrame]

/-- Master invariant carried by every reachable deframer state: the ready
queue is bounded by MAXFRAMEBUF; a held current frame implies the queue
has room (the frame was allocated while the queue was below the bound and
every publication clears it); the BMallocIO input buffer is empty, since
UVCDeframer::Write never writes into it (see claim C2). -/
def GoodState (s : DeframerState) : Prop :=
  s.frames.length ≤ MAXFRAMEBUF ∧
  (s.currentFrame ≠ none → s.frames.length < MAXFRAMEBUF) ∧
  s.inputBuf = []

/-- States reachable through the deframer's public interface. -/
inductive Reachable : DeframerState → Prop where
  | init : Reachable initDeframer
  | write (s : DeframerState) (pkt : List Nat) :
      Reachable s → Reachable (uvcWrite s pkt).1
  | get (s : DeframerState) : Reachable s → Reachable (getFrame s).1
  | flush (s : DeframerState) : Reachable s → Reachable (flushDeframer s)
  | setSize (s : DeframerState) (n : Nat) :
      Reachable s → Reachable (setExpectedFrameSize s n)

theorem goodState_uvcWriteTail (s2 : DeframerState) (pkt : List Nat) (eof fc : Bool)
    (h2 : s2.frames.length < MAXFRAMEBUF)
    (h3 : s2.inputBuf = []) :
    GoodState (uvcWriteTail s2 pkt eof fc).1 := by
  simp only [uvcWriteTail]
  split
  · refine ⟨?_, ?_, ?_⟩
    · rw [publishFrame_frames_length, applyEofPadding_frames, appendToFixed_frames]
      exact Nat.succ_le_of_lt h2
    · rw [publishFrame_currentFrame]
      intro hcontra
      exact absurd rfl hcontra
    · exact publishFrame_inputBuf _
  · refine ⟨?_, ?_, ?_⟩
    · rw [applyEofPadding_frames, appendToFixed_frames]
      exact Nat.le_of_lt h2
    · rw [applyEofPadding_frames, appendToFixed_frames]
      intro _
      exact h2
    · rw [applyEofPadding_inputBuf, appendToFixed_inputBuf]
      exact h3

theorem goodState_write (s : DeframerState) (pkt : List Nat) (h : GoodState s) :
    GoodState (uvcWrite s pkt).1 := by
  obtain ⟨h1, h2, h3⟩ := h
  simp only [uvcWrite]
  split
  · exact ⟨h1, h2, h3⟩
  · split
    · exact ⟨h1, h2, h3⟩
    · simp only [uvcWriteBody]
      split
      · -- FID changed
        obtain ⟨hf, hc, hi⟩ :
            (fidChangeBlock { s with packetsThisFrame := s.packetsThisFrame + 1 }
                (pkt.getD 1 0 % 2)).frames = s.frames ∧
            (fidChangeBlock { s with packetsThisFrame := s.packetsThisFrame + 1 }
                (pkt.getD 1 0 % 2)).currentFrame = s.currentFrame ∧
            (fidChangeBlock { s with packetsThisFrame := s.packetsThisFrame + 1 }
                (pkt.getD 1 0 % 2)).inputBuf = [] := by
          rw [fidChangeBlock_no_mjpeg _ _ (Or.inr
            (show ({ s with packetsThisFrame := s.packetsThisFrame + 1 }
              : DeframerState).inputBuf = [] from h3))]
          exact ⟨rfl, rfl, rfl⟩
        split
        · rename_i hguard
          refine ⟨?_, ?_, ?_⟩
          · exact le_of_eq_of_le (congrArg List.length hf) h1
          · intro hx
            exact absurd hguard.1 hx
          · exact hi
        · rename_i hguard
          split
          · rename_i hnone
            apply goodState_uvcWriteTail
            · have hle : ¬ MAXFRAMEBUF ≤
                  (fidChangeBlock { s with packetsThisFrame := s.packetsThisFrame + 1 }
                    (pkt.getD 1 0 % 2)).frames.length :=
                fun hx => hguard ⟨hnone, hx⟩
              exact Nat.lt_of_not_le hle
            · exact hi
          · rename_i hnone
            apply goodState_uvcWriteTail
            · have hcur : s.currentFrame ≠ none := fun he => hnone (by rw [hc, he])
              simp only [hf]
              exact h2 hcur
            · exact hi
      · -- FID unchanged
        split
        · rename_i hguard
          refine ⟨?_, ?_, ?_⟩
          · simpa using h1
          · intro hx
            exact absurd hguard.1 hx
          · exact h3
        · rename_i hguard
          split
          · rename_i hnone
            apply goodState_uvcWriteTail
            · have hle : ¬ MAXFRAMEBUF ≤
                  ({ s with packetsThisFrame := s.packetsThisFrame + 1 }
                      : DeframerState).frames.length :=
                fun hx => hguard ⟨hnone, hx⟩
              exact Nat.lt_of_not_le hle
            · exact h3
          · rename_i hnone
            apply goodState_uvcWriteTail
            · have hcur : s.currentFrame ≠ none := fun he => hnone (by simp [he])
              exact h2 hcur
            · exact h3

theorem reachable_goodState (s : DeframerState) (h : Reachable s) : GoodState s := by
  induction h with
  | init => exact ⟨by decide, fun _ => by decide, rfl⟩
  | write s pkt _ ih => exact goodState_write s pkt ih
  | get s _ ih =>
    obtain ⟨h1, h2, h3⟩ := ih
    simp only [getFrame]
    split
    · exact ⟨h1, h2, h3⟩
    · rename_i f rest heq
      have hlen : s.frames.length = rest.length + 1 := by rw [heq]; rfl
      exact ⟨(by omega : rest.length ≤ MAXFRAMEBUF),
        fun _ => (by omega : rest.length < MAXFRAMEBUF), h3⟩
  | flush s _ ih =>
    exact ⟨by simp [flushDeframer], fun _ => by simp [flushDeframer, MAXFRAMEBUF], by
      simp [flushDeframer]⟩
  | setSize s n _ ih =>
    obtain ⟨h1, h2, h3⟩ := ih
    exact ⟨h1, h2, h3⟩

/-- C6: in every state reachable through the deframer interface the ready
queue holds at most MAXFRAMEBUF = 8 frames, and when a packet that needs a
new frame buffer (valid header, non-empty payload, no current frame held)
arrives while the queue is at the bound, Write only increments the
queue-overflow counter, leaves the queue and the current-frame slot
untouched, allocates nothing, publishes nothing, and still consumes the
whole packet. -/
theorem c6_queue_bounded (s : DeframerState) (h : Reachable s) :
    s.frames.length ≤ MAXFRAMEBUF ∧
    (∀ pkt : List Nat, s.currentFrame = none → s.frames.length = MAXFRAMEBUF →
      2 ≤ pkt.getD 0 0 → pkt.getD 0 0 < pkt.length →
      (uvcWrite s pkt).1.queueOverflows = s.queueOverflows + 1 ∧
      (uvcWrite s pkt).1.frames = s.frames ∧
      (uvcWrite s pkt).1.currentFrame = none ∧
      (uvcWrite s pkt).2 = WriteResult.ok pkt.length) := by
  obtain ⟨h1, _, h3⟩ := reachable_goodState s h
  refine ⟨h1, ?_⟩
  intro pkt hcur hfull hh1 hh2
  have hmal : ¬(pkt.length < 2 ∨ pkt.getD 0 0 < 2 ∨ pkt.length < pkt.getD 0 0) := by
    omega
  have hpay : ¬(pkt.length - pkt.getD 0 0 = 0) := by omega
  have hw : uvcWrite s pkt
      = uvcWriteBody { s with packetsThisFrame := s.packetsThisFrame + 1 } pkt := by
    simp only [uvcWrite, if_neg hmal, if_neg hpay]
  rw [hw]
  simp only [uvcWriteBody]
  by_cases hfid : (pkt.getD 1 0 % 2 != s.fID) = true
  · rw [if_pos hfid]
    rw [fidChangeBlock_no_mjpeg _ _ (Or.inr
      (show ({ s with packetsThisFrame := s.packetsThisFrame + 1 }
        : DeframerState).inputBuf = [] from h3))]
    rw [if_pos ⟨hcur, by rw [hfull]⟩]
    exact ⟨rfl, rfl, hcur, rfl⟩
  · rw [if_neg hfid]
    rw [if_pos (show ({ s with packetsThisFrame := s.packetsThisFrame + 1 }
        : DeframerState).currentFrame = none ∧ MAXFRAMEBUF ≤
        ({ s with packetsThisFrame := s.packetsThisFrame + 1 }
          : DeframerState).frames.length from ⟨hcur, by rw [hfull]⟩)]
    exact ⟨rfl, rfl, hcur, rfl⟩

/-- Queue-filling packet for the C6 witness: MJPEG mode, EOF set, FID
unchanged, one payload byte — every such packet publishes one frame. -/
def qfillState : Nat → DeframerState
  | 0 => initDeframer
  | n + 1 => (uvcWrite (qfillState n) [2, 2, 9]).1

theorem qfillState_reachable (n : Nat) : Reachable (qfillState n) := by
  induction n with
  | zero => exact Reachable.init
  | succ n ih => exact Reachable.write (qfillState n) [2, 2, 9] ih

/-- C6 witness: after eight EOF packets the queue is full; a ninth packet
is dropped with only the overflow counter moving. -/
theorem c6_queue_bounded_witness :
    (qfillState 8).frames.length ≤ MAXFRAMEBUF ∧
    ((uvcWrite (qfillState 8) [2, 2, 9]).1.queueOverflows
        = (qfillState 8).queueOverflows + 1 ∧
      (uvcWrite (qfillState 8) [2, 2, 9]).1.frames = (qfillState 8).frames ∧
      (uvcWrite (qfillState 8) [2, 2, 9]).1.currentFrame = none ∧
      (uvcWrite (qfillState 8) [2, 2, 9]).2 = WriteResult.ok 3) :=
  ⟨(c6_queue_bounded (qfillState 8) (qfillState_reachable 8)).1,
    (c6_queue_bounded (qfillState 8) (qfillState_reachable 8)).2 [2, 2, 9]
      (by decide) (by decide) (by decide) (by decide)⟩

/-! Claim C4: the isochronous data pump
(CamDevice::DataPumpThread, src/CamDevice.cpp lines 1029-1074). -/

/-- One isochronous packet descriptor as seen after a transfer: whether
its status equals B_OK, and its actual_length. -/
structure IsoPacketDesc where
  statusOk : Bool
  actualLength : Nat
deriving DecidableEq, Repr

/-- Result of processing one completed transfer: the (offset, bytes)
slices forwarded to the deframer in order, and the success and error
counter increments. -/
structure PumpResult where
  writes : List (Nat × List Nat)
  successCount : Nat
  errorCount : Nat
deriving DecidableEq, Repr

/-- Packet loop of DataPumpThread (CamDevice.cpp lines 1055-1074) from
descriptor index i on: a descriptor with status not B_OK counts one error
and its slot is skipped; a descriptor with status B_OK, a positive
actual_length and a slice inside the buffer is forwarded as one write
taken at the fixed offset i * slotSize and counts one success. -/
def pumpLoop (buffer : List Nat) (slotSize : Nat) : Nat → List IsoPacketDesc → PumpResult
  | _, [] => { writes := [], successCount := 0, errorCount := 0 }
  | i, d :: rest =>
    let r := pumpLoop buffer slotSize (i + 1) rest
    if d.statusOk = false then
      { r with errorCount := r.errorCount + 1 }
    else if 0 < d.actualLength ∧ i * slotSize + d.actualLength ≤ buffer.length then
      { r with
        writes := (i * slotSize, (buffer.drop (i * slotSize)).take d.actualLength)
          :: r.writes
        successCount := r.successCount + 1 }
    else r

/-- Descriptor processing of one completed isochronous transfer:
slotSize = fBufferLen / numPacketDescriptors (CamDevice.cpp line 1033),
then the packet loop over descriptors 0..n-1. -/
def dataPumpProcess (buffer : List Nat) (descs : List IsoPacketDesc) : PumpResult :=
  pumpLoop buffer (buffer.length / descs.length) 0 descs

theorem pumpLoop_spec (buffer : List Nat) (packetSize : Nat) (descs : List IsoPacketDesc)
    (i : Nat)
    (hbound : (i + descs.length) * packetSize ≤ buffer.length)
    (hcap : ∀ d ∈ descs, d.actualLength ≤ packetSize) :
    pumpLoop buffer packetSize i descs =
      { writes := (descs.enumFrom i).filterMap (fun p =>
          if p.2.statusOk = true ∧ 0 < p.2.actualLength then
            some (p.1 * packetSize, (buffer.drop (p.1 * packetSize)).take p.2.actualLength)
          else none)
        successCount :=
          (descs.filter (fun d => d.statusOk && decide (0 < d.actualLength))).length
        errorCount := (descs.filter (fun d => !d.statusOk)).length } := by
  induction descs generalizing i with
  | nil => simp [pumpLoop]
  | cons d rest ih =>
    have hbound2 : (i + 1 + rest.length) * packetSize ≤ buffer.length := by
      simpa [Nat.add_comm, Nat.add_left_comm, Nat.add_assoc] using
        (by simpa [List.length_cons, Nat.add_comm, Nat.add_left_comm] using hbound :
          (i + 1 + rest.length) * packetSize ≤ buffer.length)
    have hcapd : d.actualLength ≤ packetSize := hcap d (List.mem_cons_self d rest)
    have hcapr : ∀ x ∈ rest, x.actualLength ≤ packetSize :=
      fun x hx => hcap x (List.mem_cons_of_mem d hx)
    rw [pumpLoop, ih (i + 1) hbound2 hcapr]
    cases hst : d.statusOk with
    | false => simp [hst, List.enumFrom]
    | true =>
      by_cases hact : 0 < d.actualLength
      · have hinb : i * packetSize + d.actualLength ≤ buffer.length := by
          have hle : (i + 1) * packetSize ≤ buffer.length := by
            calc (i + 1) * packetSize ≤ (i + 1 + rest.length) * packetSize :=
              Nat.mul_le_mul_right _ (by omega)
            _ ≤ buffer.length := hbound2
          have hsm : (i + 1) * packetSize = i * packetSize + packetSize := by ring
          omega
        simp [hst, hact, hinb, List.enumFrom]
      · simp [hst, hact, List.enumFrom, Nat.le_zero.mp (Nat.not_lt.mp hact)]

/-- C4: for a transfer buffer of exactly packet_size * Npackets bytes and
descriptors whose actual_length never exceeds packet_size (the transport
never returns more than request_length), the pump processes descriptors
0..Npackets-1 taking packet i's payload at the fixed offset
i * packet_size; every descriptor with status OK and actual_length > 0 is
forwarded as one write and counts one success; every descriptor with
status not OK counts one error and forwards nothing. -/
theorem c4_pump_fixed_offsets (buffer : List Nat) (descs : List IsoPacketDesc)
    (packetSize : Nat)
    (hn : 0 < descs.length)
    (hbuf : buffer.length = packetSize * descs.length)
    (hcap : ∀ d ∈ descs, d.actualLength ≤ packetSize) :
    dataPumpProcess buffer descs =
      { writes := (descs.enum).filterMap (fun p =>
          if p.2.statusOk = true ∧ 0 < p.2.actualLength then
            some (p.1 * packetSize, (buffer.drop (p.1 * packetSize)).take p.2.actualLength)
          else none)
        successCount :=
          (descs.filter (fun d => d.statusOk && decide (0 < d.actualLength))).length
        errorCount := (descs.filter (fun d => !d.statusOk)).length } := by
  have hslot : buffer.length / descs.length = packetSize := by
    rw [hbuf, Nat.mul_div_cancel _ hn]
  rw [dataPumpProcess, hslot]
  have hb0 : (0 + descs.length) * packetSize ≤ buffer.length := by
    rw [Nat.zero_add, hbuf]
    exact Nat.le_of_eq (Nat.mul_comm _ _)
  rw [pumpLoop_spec buffer packetSize descs 0 hb0 hcap]
  rfl

/-- C4 witness: a 3-slot transfer with one good packet, one failed packet
and one empty packet. -/
theorem c4_pump_fixed_offsets_witness :
    dataPumpProcess [10, 11, 20, 21, 30, 31]
        [⟨true, 2⟩, ⟨false, 2⟩, ⟨true, 0⟩] =
      { writes := [(0, [10, 11])], successCount := 1, errorCount := 1 } := by
  have h := c4_pump_fixed_offsets [10, 11, 20, 21, 30, 31]
    [⟨true, 2⟩, ⟨false, 2⟩, ⟨true, 0⟩] 2
    (by decide) (by decide) (by decide)
  rw [h]
  decide

/-! Claim C3: probe/commit negotiation
(UVCCamDevice::_ProbeCommitFormat, src/addons/uvc/UVCCamDevice.cpp
lines 1366-1421). -/

/-- Fields of usb_video_probe_and_commit_controls that the negotiation
reads or writes. -/
structure ProbeControls where
  formatIndex : Nat
  frameIndex : Nat
  frameInterval : Nat
  maxVideoFrameSize : Nat
  maxPayloadTransferSize : Nat
deriving DecidableEq, Repr

/-- One video-streaming control transfer issued by _ProbeCommitFormat,
with the control block sent along an OUT transfer. -/
inductive VSRequest where
  | setProbe (data : ProbeControls) : VSRequest
  | getProbe : VSRequest
  | setCommit (data : ProbeControls) : VSRequest
deriving DecidableEq, Repr

/-- Device behaviour during one probe/commit exchange: the actual lengths
returned by the two SET_CUR control transfers, and the control block the
GET_CUR on VS_PROBE_CONTROL echoes back. -/
structure ProbeDevice where
  setProbeActual : Nat
  response : ProbeControls
  setCommitActual : Nat
deriving DecidableEq, Repr

/-- The probe/commit sequence of UVCCamDevice::_ProbeCommitFormat
(lines 1366-1421): SET_CUR the request on VS_PROBE_CONTROL (B_ERROR on a
short write), GET_CUR the device's response (its length is not checked),
log only a warning when the response zeroes max_video_frame_size or
max_payload_transfer_size (lines 1389-1392), then SET_CUR the RESPONSE on
VS_COMMIT_CONTROL (B_ERROR on a short write); on success store the
response's sizes into fMaxVideoFrameSize / fMaxPayloadTransferSize.
The result is the stored size pair (none for B_ERROR) together with the
trace of issued transfers. -/
def probeCommitFormat (dev : ProbeDevice) (request : ProbeControls) (length : Nat) :
    Option (Nat × Nat) × List VSRequest :=
  if dev.setProbeActual ≠ length then
    (none, [VSRequest.setProbe request])
  else if dev.setCommitActual ≠ length then
    (none, [VSRequest.setProbe request, VSRequest.getProbe,
      VSRequest.setCommit dev.response])
  else
    (some (dev.response.maxVideoFrameSize, dev.response.maxPayloadTransferSize),
      [VSRequest.setProbe request, VSRequest.getProbe,
        VSRequest.setCommit dev.response])

/-- C3 counterexample: with both SET_CUR transfers returning the full
control-block length but the device echoing max_video_frame_size = 0 and
max_payload_transfer_size = 0, _ProbeCommitFormat still succeeds (it only
logs a warning), contradicting the claim that it returns an error. -/
theorem c3_counterexample :
    (probeCommitFormat
        { setProbeActual := 26
          response :=
            { formatIndex := 1, frameIndex := 1, frameInterval := 333333
              maxVideoFrameSize := 0, maxPayloadTransferSize := 0 }
          setCommitActual := 26 }
        { formatIndex := 1, frameIndex := 1, frameInterval := 333333
          maxVideoFrameSize := 614400, maxPayloadTransferSize := 3072 }
        26).1 = some (0, 0) := by
  decide

/-- C3 (amended): the commit SET_CUR on VS_COMMIT_CONTROL always carries
the control block echoed by the device's GET_CUR probe response, never the
originally requested values; _ProbeCommitFormat returns an error exactly
when one of the two SET_CUR transfers moves a number of bytes different
from the control-block length; a probe response with
max_video_frame_size = 0 or max_payload_transfer_size = 0 only produces a
log warning and is stored and returned as-is. -/
theorem c3_commit_uses_echoed_values (dev : ProbeDevice) (request : ProbeControls)
    (length : Nat) :
    ((probeCommitFormat dev request length).1 = none ↔
      dev.setProbeActual ≠ length ∨ dev.setCommitActual ≠ length) ∧
    (∀ d : ProbeControls,
      VSRequest.setCommit d ∈ (probeCommitFormat dev request length).2 →
        d = dev.response) ∧
    (dev.setProbeActual = length → dev.setCommitActual = length →
      (probeCommitFormat dev request length).1
        = some (dev.response.maxVideoFrameSize, dev.response.maxPayloadTransferSize) ∧
      (probeCommitFormat dev request length).2
        = [VSRequest.setProbe request, VSRequest.getProbe,
            VSRequest.setCommit dev.response]) := by
  unfold probeCommitFormat
  split_ifs with h1 h2
  · refine ⟨by simp [h1], ?_, ?_⟩
    · intro d hd
      simp at hd
    · intro hp _
      exact absurd hp h1
  · refine ⟨by simp [h2], ?_, ?_⟩
    · intro d hd
      simp at hd
      exact hd
    · intro _ hc
      exact absurd hc h2
  · refine ⟨by simp [h1, h2], ?_, ?_⟩
    · intro d hd
      simp at hd
      exact hd
    · intro _ _
      exact ⟨rfl, rfl⟩

/-- C3 witness: a well-behaved device at control-block length 26. -/
theorem c3_commit_uses_echoed_values_witness :
    (probeCommitFormat
        { setProbeActual := 26
          response :=
            { formatIndex := 1, frameIndex := 2, frameInterval := 333333
              maxVideoFrameSize := 614400, maxPayloadTransferSize := 3072 }
          setCommitActual := 26 }
        { formatIndex := 1, frameIndex := 1, frameInterval := 400000
          maxVideoFrameSize := 0, maxPayloadTransferSize := 0 }
        26).1 = some (614400, 3072) ∧
    (probeCommitFormat
        { setProbeActual := 26
          response :=
            { formatIndex := 1, frameIndex := 2, frameInterval := 333333
              maxVideoFrameSize := 614400, maxPayloadTransferSize := 3072 }
          setCommitActual := 26 }
        { formatIndex := 1, frameIndex := 1, frameInterval := 400000
          maxVideoFrameSize := 0, maxPayloadTransferSize := 0 }
        26).2 =
      [VSRequest.setProbe
          { formatIndex := 1, frameIndex := 1, frameInterval := 400000
            maxVideoFrameSize := 0, maxPayloadTransferSize := 0 },
        VSRequest.getProbe,
        VSRequest.setCommit
          { formatIndex := 1, frameIndex := 2, frameInterval := 333333
            maxVideoFrameSize := 614400, maxPayloadTransferSize := 3072 }] :=
  (c3_commit_uses_echoed_values
    { setProbeActual := 26
      response :=
        { formatIndex := 1, frameIndex := 2, frameInterval := 333333
          maxVideoFrameSize := 614400, maxPayloadTransferSize := 3072 }
      setCommitActual := 26 }
    { formatIndex := 1, frameIndex := 1, frameInterval := 400000
      maxVideoFrameSize := 0, maxPayloadTransferSize := 0 }
    26).2.2 rfl rfl

/-! Claim C7: alternate-setting selection
(UVCCamDevice::_SelectBestAlternate, src/addons/uvc/UVCCamDevice.cpp
lines 1479-1655). -/

/-- One USB endpoint of an alternate setting: whether IsIsochronous() and
IsInput() both hold, and the raw wMaxPacketSize field. -/
structure UsbEndpoint where
  isIsoIn : Bool
  rawMaxPacketSize : Nat
deriving DecidableEq, Repr

/-- Bottom 11 bits of wMaxPacketSize (line 1519). -/
def basePacketSize (raw : Nat) : Nat := raw &&& 0x7FF

/-- Bits 11-12 of wMaxPacketSize plus one (line 1520). -/
def epTransactions (raw : Nat) : Nat := ((raw >>> 11) &&& 0x3) + 1

/-- Bandwidth the selection loop attributes to one isochronous IN
endpoint: none when the endpoint is skipped entirely — a high-bandwidth
endpoint (transactions > 1) while high-bandwidth is not allowed
(lines 1542-1547) — otherwise base * transactions for an allowed
high-bandwidth endpoint and the bare base packet size for a regular one
(line 1556). -/
def effectiveBandwidth (allowHB : Bool) (raw : Nat) : Option Nat :=
  let base := basePacketSize raw
  let trans := epTransactions raw
  if 1 < trans ∧ allowHB = false then none
  else some (if 1 < trans ∧ allowHB = true then base * trans else base)

/-- Endpoint loop of _SelectBestAlternate (lines 1511-1563) over the
endpoints of alternate altIdx starting at endpoint index j, carrying the
accumulator (bestBandwidth, alternateIndex, endpointIndex) updated on
strict improvement. -/
def scanEps (allowHB : Bool) (altIdx : Nat) :
    Nat → List UsbEndpoint → Nat × Nat × Nat → Nat × Nat × Nat
  | _, [], acc => acc
  | j, ep :: rest, acc =>
    let acc2 :=
      if ep.isIsoIn = false then acc
      else
        match effectiveBandwidth allowHB ep.rawMaxPacketSize with
        | none => acc
        | some eff => if acc.1 < eff then (eff, altIdx, j) else acc
    scanEps allowHB altIdx (j + 1) rest acc2

/-- Alternate loop of _SelectBestAlternate (lines 1508-1564). -/
def scanAlts (allowHB : Bool) :
    Nat → List (List UsbEndpoint) → Nat × Nat × Nat → Nat × Nat × Nat
  | _, [], acc => acc
  | i, eps :: rest, acc => scanAlts allowHB (i + 1) rest (scanEps allowHB i 0 eps acc)

/-- UVCCamDevice::_SelectBestAlternate selection outcome: scan every
alternate, fail (B_ERROR, line 1569-1570) when the best bandwidth stayed
zero, otherwise return (bestBandwidth, alternateIndex, endpointIndex).
The required bandwidth derived from the committed
max_payload_transfer_size is computed and logged (lines 1491-1497) but
never consulted by the selection. -/
def selectBestAlternate (allowHB : Bool) (alts : List (List UsbEndpoint)) :
    Option (Nat × Nat × Nat) :=
  let r := scanAlts allowHB 0 alts (0, 0, 0)
  if r.1 = 0 then none else some r

/-- Pump buffer allocation of lines 1626-1641: fIsoMaxPacketSize is the
selected bandwidth and the buffer is fIsoMaxPacketSize * 32 bytes. -/
def selectBufferSize (allowHB : Bool) (alts : List (List UsbEndpoint)) : Option Nat :=
  (selectBestAlternate allowHB alts).map (fun r => r.1 * 32)

/-- Effective bandwidths of the endpoints the code's loop actually
considers, in scan order. -/
def consideredBandwidths (allowHB : Bool) (alts : List (List UsbEndpoint)) : List Nat :=
  alts.flatMap (fun eps => eps.filterMap (fun ep =>
    if ep.isIsoIn = true then effectiveBandwidth allowHB ep.rawMaxPacketSize else none))

/-- Selection as the claim words it, for comparison with the source's
selectBestAlternate.  This definition follows the specification text, not
the code: every isochronous IN endpoint participates with
effective_bandwidth = base * transactions when high-bandwidth is
permitted and the base packet size otherwise, and the pick is the maximum
effective_bandwidth among endpoints satisfying required_packet_bytes. -/
def selectBestAlternateSpec (allowHB : Bool) (required : Nat)
    (alts : List (List UsbEndpoint)) : Option (Nat × Nat × Nat) :=
  let candidates := (alts.enum).flatMap (fun p =>
    (p.2.enum).filterMap (fun q =>
      if q.2.isIsoIn = true then
        let base := basePacketSize q.2.rawMaxPacketSize
        let trans := epTransactions q.2.rawMaxPacketSize
        let eff := if allowHB = true then base * trans else base
        if required ≤ eff then some (eff, p.1, q.1) else none
      else none))
  candidates.foldl
    (fun acc c =>
      match acc with
      | none => some c
      | some a => if a.1 < c.1 then some c else some a)
    none

/-- C7 counterexample: one full-speed endpoint (raw 100: base 100,
1 transaction) and one high-bandwidth endpoint (raw 4608 = 0x1200:
base 512, 3 transactions), with high-bandwidth not permitted and
required_packet_bytes 200.  The claimed selection picks the second
endpoint at bandwidth 512 (its base satisfies the requirement); the code
skips the high-bandwidth endpoint entirely, ignores the requirement, and
picks the first endpoint at bandwidth 100. -/
theorem c7_counterexample :
    selectBestAlternate false
        [[{ isIsoIn := true, rawMaxPacketSize := 100 }],
          [{ isIsoIn := true, rawMaxPacketSize := 4608 }]] = some (100, 0, 0) ∧
    selectBestAlternateSpec false 200
        [[{ isIsoIn := true, rawMaxPacketSize := 100 }],
          [{ isIsoIn := true, rawMaxPacketSize := 4608 }]] = some (512, 1, 0) ∧
    (100 : Nat) ≠ 512 := by
  decide

theorem scanEps_bw (allowHB : Bool) (a : Nat) (eps : List UsbEndpoint) :
    ∀ (j : Nat) (acc : Nat × Nat × Nat),
      (scanEps allowHB a j eps acc).1 =
        max acc.1 ((eps.filterMap (fun ep =>
          if ep.isIsoIn = true then effectiveBandwidth allowHB ep.rawMaxPacketSize
          else none)).foldr max 0) := by
  induction eps with
  | nil => intro j acc; simp [scanEps]
  | cons ep rest ih =>
    intro j acc
    rw [scanEps]
    cases hiso : ep.isIsoIn with
    | false =>
      simp only [hiso, Bool.false_eq_true, if_true, if_neg]
      rw [ih]
      simp [hiso]
    | true =>
      cases heff : effectiveBandwidth allowHB ep.rawMaxPacketSize with
      | none =>
        simp only [hiso]
        rw [ih]
        simp [hiso, heff]
      | some eff =>
        simp only [hiso]
        rw [ih]
        simp only [List.filterMap_cons, hiso, if_pos rfl, heff, List.foldr_cons]
        by_cases hlt : acc.1 < eff
        · simp [hlt]
          omega
        · simp [hlt]
          omega

theorem scanAlts_bw (allowHB : Bool) (alts : List (List UsbEndpoint)) :
    ∀ (i : Nat) (acc : Nat × Nat × Nat),
      (scanAlts allowHB i alts acc).1 =
        max acc.1 ((consideredBandwidths allowHB alts).foldr max 0) := by
  have key : ∀ (l1 l2 : List Nat),
      List.foldr max (List.foldr max 0 l2) l1
        = max (List.foldr max 0 l1) (List.foldr max 0 l2) := by
    intro l1 l2
    induction l1 with
    | nil => simp
    | cons x xs ihx =>
      simp only [List.foldr_cons, ihx]
      omega
  induction alts with
  | nil => intro i acc; simp [scanAlts, consideredBandwidths]
  | cons eps rest ih =>
    intro i acc
    rw [scanAlts, ih, scanEps_bw]
    simp only [consideredBandwidths, List.flatMap_cons, List.foldr_append, key]
    omega

/-- Default endpoint used for index lookups in statements. -/
def defaultEp : UsbEndpoint := { isIsoIn := false, rawMaxPacketSize := 0 }

theorem scanEps_pick (allowHB : Bool) (a : Nat) (eps : List UsbEndpoint) :
    ∀ (j : Nat) (acc : Nat × Nat × Nat),
      scanEps allowHB a j eps acc = acc ∨
      ∃ k, k < eps.length ∧
        (eps.getD k defaultEp).isIsoIn = true ∧
        effectiveBandwidth allowHB (eps.getD k defaultEp).rawMaxPacketSize
          = some (scanEps allowHB a j eps acc).1 ∧
        (scanEps allowHB a j eps acc).2 = (a, j + k) := by
  induction eps with
  | nil => intro j acc; exact Or.inl rfl
  | cons ep rest ih =>
    intro j acc
    cases hiso : ep.isIsoIn with
    | false =>
      have hstep : scanEps allowHB a j (ep :: rest) acc
          = scanEps allowHB a (j + 1) rest acc := by
        rw [scanEps]
        simp [hiso]
      rw [hstep]
      rcases ih (j + 1) acc with h | ⟨k, hk, hi, he, hp⟩
      · exact Or.inl h
      · exact Or.inr ⟨k + 1, by simpa using hk, by simpa using hi, by simpa using he,
          by rw [hp]; congr 1; omega⟩
    | true =>
      cases heff : effectiveBandwidth allowHB ep.rawMaxPacketSize with
      | none =>
        have hstep : scanEps allowHB a j (ep :: rest) acc
            = scanEps allowHB a (j + 1) rest acc := by
          rw [scanEps]
          simp [hiso, heff]
        rw [hstep]
        rcases ih (j + 1) acc with h | ⟨k, hk, hi, he, hp⟩
        · exact Or.inl h
        · exact Or.inr ⟨k + 1, by simpa using hk, by simpa using hi, by simpa using he,
            by rw [hp]; congr 1; omega⟩
      | some eff =>
        by_cases hlt : acc.1 < eff
        · have hstep : scanEps allowHB a j (ep :: rest) acc
              = scanEps allowHB a (j + 1) rest (eff, a, j) := by
            rw [scanEps]
            simp [hiso, heff, hlt]
          rw [hstep]
          rcases ih (j + 1) (eff, a, j) with h | ⟨k, hk, hi, he, hp⟩
          · rw [h]
            exact Or.inr ⟨0, by simp, by simpa using hiso, by simpa using heff, by simp⟩
          · exact Or.inr ⟨k + 1, by simpa using hk, by simpa using hi, by simpa using he,
              by rw [hp]; congr 1; omega⟩
        · have hstep : scanEps allowHB a j (ep :: rest) acc
              = scanEps allowHB a (j + 1) rest acc := by
            rw [scanEps]
            simp [hiso, heff, hlt]
          rw [hstep]
          rcases ih (j + 1) acc with h | ⟨k, hk, hi, he, hp⟩
          · exact Or.inl h
          · exact Or.inr ⟨k + 1, by simpa using hk, by simpa using hi, by simpa using he,
              by rw [hp]; congr 1; omega⟩

theorem scanAlts_pick (allowHB : Bool) (alts : List (List UsbEndpoint)) :
    ∀ (i : Nat) (acc : Nat × Nat × Nat),
      scanAlts allowHB i alts acc = acc ∨
      ∃ m k, m < alts.length ∧ k < (alts.getD m []).length ∧
        ((alts.getD m []).getD k defaultEp).isIsoIn = true ∧
        effectiveBandwidth allowHB
            ((alts.getD m []).getD k defaultEp).rawMaxPacketSize
          = some (scanAlts allowHB i alts acc).1 ∧
        (scanAlts allowHB i alts acc).2 = (i + m, k) := by
  induction alts with
  | nil => intro i acc; exact Or.inl rfl
  | cons eps rest ih =>
    intro i acc
    rw [scanAlts]
    rcases ih (i + 1) (scanEps allowHB i 0 eps acc) with h |
      ⟨m, k, hm, hk, hiso, heff, hpos⟩
    · rw [h]
      rcases scanEps_pick allowHB i eps 0 acc with h2 | ⟨k, hk, hiso, heff, hpos⟩
      · exact Or.inl h2
      · exact Or.inr ⟨0, k, by simp, by simpa using hk, by simpa using hiso,
          by simpa using heff, by simpa using hpos⟩
    · exact Or.inr ⟨m + 1, k, by simpa using hm, by simpa using hk,
        by simpa using hiso, by simpa using heff,
        by rw [hpos]; congr 1; omega⟩

/-- C7 (amended): _SelectBestAlternate decodes each isochronous IN
endpoint's max-packet field as base = bits 0-10 and transactions =
bits 11-12 plus one; when high-bandwidth is permitted a multi-transaction
endpoint scores base * transactions, and when it is not permitted such an
endpoint is skipped entirely (it does not participate with its base
size); the selection picks the maximum effective bandwidth over the
considered endpoints with no regard to the required_packet_bytes from
commit, which is computed and logged only; it fails exactly when that
maximum is zero, and otherwise the returned indices point at a considered
endpoint achieving the maximum and the pump buffer size is exactly
bandwidth * 32. -/
theorem c7_alternate_selection (allowHB : Bool) (alts : List (List UsbEndpoint)) :
    (selectBestAlternate allowHB alts = none ↔
      (consideredBandwidths allowHB alts).foldr max 0 = 0) ∧
    (∀ b i j, selectBestAlternate allowHB alts = some (b, i, j) →
      b = (consideredBandwidths allowHB alts).foldr max 0 ∧
      0 < b ∧
      i < alts.length ∧
      j < (alts.getD i []).length ∧
      ((alts.getD i []).getD j defaultEp).isIsoIn = true ∧
      effectiveBandwidth allowHB
          ((alts.getD i []).getD j defaultEp).rawMaxPacketSize = some b ∧
      selectBufferSize allowHB alts = some (b * 32)) := by
  have hbw : (scanAlts allowHB 0 alts (0, 0, 0)).1
      = (consideredBandwidths allowHB alts).foldr max 0 := by
    rw [scanAlts_bw]
    simp
  constructor
  · constructor
    · intro hnone
      rw [selectBestAlternate] at hnone
      by_cases hz : (scanAlts allowHB 0 alts (0, 0, 0)).1 = 0
      · rw [← hbw]
        exact hz
      · rw [if_neg hz] at hnone
        exact absurd hnone (by simp)
    · intro hz
      rw [selectBestAlternate, if_pos (by rw [hbw]; exact hz)]
  · intro b i j hsel
    rw [selectBestAlternate] at hsel
    by_cases hz : (scanAlts allowHB 0 alts (0, 0, 0)).1 = 0
    · rw [if_pos hz] at hsel
      exact absurd hsel (by simp)
    · rw [if_neg hz] at hsel
      have hr : scanAlts allowHB 0 alts (0, 0, 0) = (b, i, j) := by
        exact Option.some_injective _ hsel
      have hb : b = (consideredBandwidths allowHB alts).foldr max 0 := by
        rw [← hbw, hr]
      have hbpos : 0 < b := by
        have : (scanAlts allowHB 0 alts (0, 0, 0)).1 = b := by rw [hr]
        omega
      rcases scanAlts_pick allowHB alts 0 (0, 0, 0) with hacc | ⟨m, k, hm, hk, hiso, heff, hpos⟩
      · rw [hacc] at hr
        have : b = 0 := by
          have := congrArg Prod.fst hr
          simpa using this.symm
        omega
      · have hm2 : (m, k) = (i, j) := by
          rw [hr] at hpos
          simpa using hpos.symm
        have hmi : m = i := congrArg Prod.fst hm2
        have hkj : k = j := congrArg Prod.snd hm2
        subst hmi
        subst hkj
        refine ⟨hb, hbpos, hm, hk, hiso, ?_, ?_⟩
        · rw [hr] at heff
          exact heff
        · rw [selectBufferSize, selectBestAlternate, if_neg hz, hr]
          rfl

/-- C7 witness: two alternates, high-bandwidth allowed; the 3-transaction
endpoint with base 512 wins at bandwidth 1536 and the pump buffer is
1536 * 32 bytes. -/
theorem c7_alternate_selection_witness :
    (consideredBandwidths true
        [[{ isIsoIn := true, rawMaxPacketSize := 100 }],
          [{ isIsoIn := true, rawMaxPacketSize := 4608 }]]).foldr max 0 = 1536 ∧
    ((1536 : Nat) = (consideredBandwidths true
        [[{ isIsoIn := true, rawMaxPacketSize := 100 }],
          [{ isIsoIn := true, rawMaxPacketSize := 4608 }]]).foldr max 0 ∧
      0 < 1536 ∧
      1 < ([[{ isIsoIn := true, rawMaxPacketSize := 100 }],
          [{ isIsoIn := true, rawMaxPacketSize := 4608 }]]
            : List (List UsbEndpoint)).length ∧
      0 < (([[{ isIsoIn := true, rawMaxPacketSize := 100 }],
          [{ isIsoIn := true, rawMaxPacketSize := 4608 }]]
            : List (List UsbEndpoint)).getD 1 []).length ∧
      ((([[{ isIsoIn := true, rawMaxPacketSize := 100 }],
          [{ isIsoIn := true, rawMaxPacketSize := 4608 }]]
            : List (List UsbEndpoint)).getD 1 []).getD 0 defaultEp).isIsoIn = true ∧
      effectiveBandwidth true
          ((([[{ isIsoIn := true, rawMaxPacketSize := 100 }],
            [{ isIsoIn := true, rawMaxPacketSize := 4608 }]]
              : List (List UsbEndpoint)).getD 1 []).getD 0
            defaultEp).rawMaxPacketSize = some 1536 ∧
      selectBufferSize true
          [[{ isIsoIn := true, rawMaxPacketSize := 100 }],
            [{ isIsoIn := true, rawMaxPacketSize := 4608 }]] = some (1536 * 32)) :=
  ⟨by decide,
    (c7_alternate_selection true
      [[{ isIsoIn := true, rawMaxPacketSize := 100 }],
        [{ isIsoIn := true, rawMaxPacketSize := 4608 }]]).2 1536 1 0 (by decide)⟩

/-! Claim C9: audio pump ring-buffer back-pressure
(UVCCamDevice::AudioPumpThread, src/addons/uvc/UVCCamDevice.cpp
lines 2190-2224, and UVCCamDevice::ReadAudioData, lines 1864-1908). -/

/-- The audio ring: fAudioRingSize, fAudioRingBuffer (as a byte map),
fAudioRingHead (producer) and fAudioRingTail (consumer). -/
structure AudioRing where
  size : Nat
  buf : Nat → Nat
  head : Nat
  tail : Nat

/-- Free-space computation of AudioPumpThread lines 2199-2206. -/
def audioRingSpace (r : AudioRing) : Nat :=
  if r.tail ≤ r.head then r.size - r.head + r.tail - 1 else r.tail - r.head - 1

/-- Available-data computation of ReadAudioData lines 1879-1882. -/
def audioAvailable (r : AudioRing) : Nat :=
  if r.tail ≤ r.head then r.head - r.tail else r.size - r.tail + r.head

/-- One memcpy into the ring buffer starting at start. -/
def writeRange (buf : Nat → Nat) (start : Nat) (data : List Nat) : Nat → Nat :=
  fun i => if start ≤ i ∧ i < start + data.length then data.getD (i - start) 0 else buf i

/-- Per-packet ring copy of AudioPumpThread lines 2198-2223: when the free
space is smaller than the packet the whole packet is dropped and nothing
at all changes (the code only has a comment where the claim expects an
overflow counter); otherwise the packet is copied (with wraparound) and
the head advances modulo the ring size. -/
def audioWritePacket (r : AudioRing) (packet : List Nat) : AudioRing :=
  let space := audioRingSpace r
  if space < packet.length then r
  else
    let firstChunk := r.size - r.head
    let buf2 :=
      if packet.length ≤ firstChunk then writeRange r.buf r.head packet
      else
        writeRange (writeRange r.buf r.head (packet.take firstChunk)) 0
          (packet.drop firstChunk)
    { r with buf := buf2, head := (r.head + packet.length) % r.size }

/-- Per-descriptor audio processing of lines 2191-2196: descriptors with
a failed status or an empty payload are skipped. -/
def audioProcessDesc (r : AudioRing) (statusOk : Bool) (packet : List Nat) : AudioRing :=
  if statusOk = false ∨ packet.length = 0 then r else audioWritePacket r packet

/-- Consumer tail advance of ReadAudioData line 1905. -/
def audioReadAdvance (r : AudioRing) (n : Nat) : AudioRing :=
  { r with tail := (r.tail + n) % r.size }

/-- C9 counterexample: the claim says a dropped packet increments an
overflow counter.  At capacity 8, head 7, tail 0 (free space 0) a 1-byte
packet is dropped and the resulting state is literally the input state:
no component of the audio state changes, so no counter of any kind is
incremented — AudioPumpThread lines 2208-2211 contain only a comment. -/
theorem c9_counterexample :
    audioWritePacket { size := 8, buf := fun _ => 0, head := 7, tail := 0 } [42]
      = { size := 8, buf := fun _ => 0, head := 7, tail := 0 } := rfl

/-- C9 (amended): for each received audio packet with status OK and
actual_length > 0, the pump copies it into the ring buffer only when the
free space, which equals capacity - available - 1, is at least the packet
length; otherwise the entire packet is dropped and the producer head is
left unchanged — with no overflow counter (none exists in the audio
path); failed or empty descriptors are skipped outright.  On a successful
copy the head advances by the packet length modulo the ring size and the
tail is untouched. -/
theorem c9_audio_ring (r : AudioRing) (statusOk : Bool) (packet : List Nat)
    (hh : r.head < r.size) (ht : r.tail < r.size) :
    audioRingSpace r = r.size - audioAvailable r - 1 ∧
    (audioRingSpace r < packet.length → audioWritePacket r packet = r) ∧
    (packet.length ≤ audioRingSpace r →
      (audioWritePacket r packet).head = (r.head + packet.length) % r.size ∧
      (audioWritePacket r packet).tail = r.tail ∧
      (audioWritePacket r packet).size = r.size) ∧
    (statusOk = false ∨ packet.length = 0 → audioProcessDesc r statusOk packet = r) := by
  refine ⟨?_, ?_, ?_, ?_⟩
  · rw [audioRingSpace, audioAvailable]
    split <;> omega
  · intro hlt
    rw [audioWritePacket, if_pos hlt]
  · intro hle
    rw [audioWritePacket, if_neg (by omega)]
    exact ⟨rfl, rfl, rfl⟩
  · intro hskip
    rw [audioProcessDesc, if_pos hskip]

/-- C9 witness, scenario S6: at capacity 8, head 7, tail 0 a 1-byte write
is dropped with the state (head included) unchanged; after the consumer
has read 4 bytes (tail 4) a 3-byte write succeeds, moving the head to
(7 + 3) mod 8 = 2 while the tail stays 4. -/
theorem c9_audio_ring_witness :
    audioWritePacket { size := 8, buf := fun _ => 0, head := 7, tail := 0 } [42]
        = { size := 8, buf := fun _ => 0, head := 7, tail := 0 } ∧
    (audioWritePacket { size := 8, buf := fun _ => 0, head := 7, tail := 4 }
        [1, 2, 3]).head = 2 ∧
    (audioWritePacket { size := 8, buf := fun _ => 0, head := 7, tail := 4 }
        [1, 2, 3]).tail = 4 :=
  ⟨(c9_audio_ring { size := 8, buf := fun _ => 0, head := 7, tail := 0 } true [42]
      (by decide) (by decide)).2.1 (by decide),
    ((c9_audio_ring { size := 8, buf := fun _ => 0, head := 7, tail := 4 } true [1, 2, 3]
      (by decide) (by decide)).2.2.1 (by decide)).1.trans (by decide),
    ((c9_audio_ring { size := 8, buf := fun _ => 0, head := 7, tail := 4 } true [1, 2, 3]
      (by decide) (by decide)).2.2.1 (by decide)).2.1⟩

/-! Claims C8 and C10: the YUY2 to BGRA converter
(UVCCamDevice::_ConvertYUY2toRGB32, src/addons/uvc/UVCCamDevice.cpp
lines 3104-3262) and the lookup tables
(yuv_rgb_lookup_tables::Initialize, lines 72-100). -/

/-- Branchless clamp of lines 3105-3111. -/
def clamp255 (v : Int) : Nat :=
  if v < 0 then 0 else if 255 < v then 255 else v.toNat

/-- y_table[i] = 298 * (i - 16) (line 82). -/
def yTable (i : Nat) : Int := 298 * ((i : Int) - 16)

/-- u_b_table[i] = 516 * (i - 128) (line 86). -/
def uBTable (i : Nat) : Int := 516 * ((i : Int) - 128)

/-- u_g_table[i] = -100 * (i - 128) (line 89). -/
def uGTable (i : Nat) : Int := -100 * ((i : Int) - 128)

/-- v_r_table[i] = 409 * (i - 128) (line 92). -/
def vRTable (i : Nat) : Int := 409 * ((i : Int) - 128)

/-- v_g_table[i] = -208 * (i - 128) (line 95). -/
def vGTable (i : Nat) : Int := -208 * ((i : Int) - 128)

/-- Arithmetic right shift by 8 of a C int32 value, which is floor
division by 256 (the table sums stay far inside int32 range). -/
def shr8 (v : Int) : Int := Int.fdiv v 256

/-- The eight BGRA bytes one YUY2 macro-pixel Y0 U Y1 V produces
(lines 3248-3258): B G R A for pixel 0 then for pixel 1. -/
def macroPixelBytes (y0 u y1 v : Nat) : List Nat :=
  [ clamp255 (shr8 (yTable y0 + uBTable u + 128)),
    clamp255 (shr8 (yTable y0 + uGTable u + vGTable v + 128)),
    clamp255 (shr8 (yTable y0 + vRTable v + 128)),
    255,
    clamp255 (shr8 (yTable y1 + uBTable u + 128)),
    clamp255 (shr8 (yTable y1 + uGTable u + vGTable v + 128)),
    clamp255 (shr8 (yTable y1 + vRTable v + 128)),
    255 ]

/-- Destination writes of macro-pixel m of row number row: the source
row starts at row * srcStride with srcStride = 2 * width, the destination
row at row * dstStride with dstStride = 4 * width (lines 3223-3259). -/
def macroWrites (src : Nat → Nat) (w row m : Nat) : List (Nat × Nat) :=
  let rowBase := row * (2 * w)
  let y0 := src (rowBase + 4 * m)
  let u := src (rowBase + 4 * m + 1)
  let y1 := src (rowBase + 4 * m + 2)
  let v := src (rowBase + 4 * m + 3)
  (List.range 8).map (fun o =>
    (row * (4 * w) + 8 * m + o, (macroPixelBytes y0 u y1 v).getD o 0))

/-- Source indices macro-pixel m of row row reads (lines 3234-3237). -/
def macroReads (w row m : Nat) : List Nat :=
  let rowBase := row * (2 * w)
  [rowBase + 4 * m, rowBase + 4 * m + 1, rowBase + 4 * m + 2, rowBase + 4 * m + 3]

/-- Macro-pixels per row: the inner loop runs x = 0, 2, ... while
x < width (line 3232). -/
def numMacros (w : Nat) : Nat := (w + 1) / 2

/-- Rows actually converted: the row loop breaks at the first row whose
full 2 * width source bytes would extend past srcSize (lines 3227-3229). -/
def rowsConverted (srcSize w h : Nat) : Nat := min h (srcSize / (2 * w))

/-- Observable behaviour of one _ConvertYUY2toRGB32 call: the destination
writes (index, byte) in order and the source indices read. -/
structure ConvertResult where
  writes : List (Nat × Nat)
  reads : List Nat
deriving DecidableEq, Repr

/-- Source reads of the first-five-calls diagnostics block
(lines 3140-3189): src[0..7] unconditionally (lines 3146-3147), then —
when srcSize is at least width * 4 — the stride tests over offsets
512, 1024, 2048 and 2 * width, stopping at the first offset with
srcSize ≤ offset + 8 (the bound sits in the for-loop condition,
line 3181). -/
def diagReads (w srcSize : Nat) : List Nat :=
  [0, 1, 2, 3, 4, 5, 6, 7] ++
  (if w * 4 ≤ srcSize then
      ([512, 1024, 2048, 2 * w].takeWhile (fun off => off + 8 < srcSize)).flatMap
        (fun off => [0, off, 2, off + 2, 4, off + 4, 6, off + 6])
    else [])

/-- UVCCamDevice::_ConvertYUY2toRGB32 modelled by the destination writes
and source reads it performs.  dstNull and srcNull model NULL pointer
arguments, width and height are the int32 arguments, and diagActive
models the static diagnostics counter still being below 5 (the first five
invocations run the diagnostics block). -/
def convertYUY2toRGB32 (dstNull srcNull : Bool) (src : Nat → Nat) (srcSize : Nat)
    (width height : Int) (diagActive : Bool) : ConvertResult :=
  if dstNull = true ∨ srcNull = true ∨ width ≤ 0 ∨ height ≤ 0 then
    { writes := [], reads := [] }
  else
    let w := width.toNat
    let h := height.toNat
    let dr := if diagActive = true then diagReads w srcSize else []
    let rows := rowsConverted srcSize w h
    { writes := (List.range rows).flatMap (fun row =>
        (List.range (numMacros w)).flatMap (fun m => macroWrites src w row m))
      reads := dr ++ (List.range rows).flatMap (fun row =>
        (List.range (numMacros w)).flatMap (fun m => macroReads w row m)) }

/-- Result of applying a write list to an initial destination buffer,
later writes winning. -/
def applyWrites (d : Nat → Nat) : List (Nat × Nat) → Nat → Nat
  | [], i => d i
  | p :: rest, i => applyWrites (fun j => if j = p.1 then p.2 else d j) rest i

/-- blackSrc: a YUY2 source frame of the repeating black pattern
00 80 00 80 (Y = 0, U = V = 128). -/
def blackSrc (i : Nat) : Nat := if i % 2 = 0 then 0x00 else 0x80

/-- whiteSrc: a YUY2 source frame of the white pattern Y = 235,
U = V = 128. -/
def whiteSrc (i : Nat) : Nat := if i % 2 = 0 then 235 else 128

/-- C10 counterexample: two in-bounds violations of the claim that every
source read stays below srcSize.  First, within the first five
invocations the diagnostics block reads src[0..7] unconditionally
(lines 3146-3147), so a 4-byte source is over-read at index 7.  Second,
with odd width 1 and srcSize 2 the row guard passes (2 bytes needed) but
the macro-pixel loop reads 4 source bytes, over-reading at index 2. -/
theorem c10_counterexample :
    (7 ∈ (convertYUY2toRGB32 false false (fun _ => 0) 4 2 2 true).reads ∧ ¬(7 < 4)) ∧
    (2 ∈ (convertYUY2toRGB32 false false (fun _ => 0) 2 1 1 false).reads ∧ ¬(2 < 2)) := by
  decide

/-- C10 (amended): with a null destination or source pointer or
non-positive width or height the converter returns without reading or
writing anything; and past the first five invocations (diagnostics off),
for even width the converter reads source bytes only within
src[0, srcSize) — it converts rows top-to-bottom, stopping before the
first row whose full width*2 source bytes would extend past srcSize — and
writes only destination bytes of the converted rows, leaving all
remaining destination rows unmodified.  The first five invocations read
src[0..7] unconditionally, and an odd width reads and writes up to one
macro-pixel past the row end (see the counterexample). -/
theorem c10_convert_bounds (src : Nat → Nat) (srcSize : Nat) (width height : Int) :
    (∀ dstNull srcNull diag : Bool,
      dstNull = true ∨ srcNull = true ∨ width ≤ 0 ∨ height ≤ 0 →
      convertYUY2toRGB32 dstNull srcNull src srcSize width height diag
        = { writes := [], reads := [] }) ∧
    (0 < width → 0 < height → width.toNat % 2 = 0 →
      (∀ i ∈ (convertYUY2toRGB32 false false src srcSize width height false).reads,
        i < srcSize) ∧
      (∀ p ∈ (convertYUY2toRGB32 false false src srcSize width height false).writes,
        p.1 < rowsConverted srcSize width.toNat height.toNat * (4 * width.toNat))) := by
  constructor
  · intro dstNull srcNull diag hbad
    rw [convertYUY2toRGB32, if_pos hbad]
  · intro hwpos hhpos heven
    have hguard : ¬((false : Bool) = true ∨ (false : Bool) = true ∨ width ≤ 0 ∨ height ≤ 0) := by
      simp
      omega
    rw [convertYUY2toRGB32, if_neg hguard]
    have hw0 : 0 < width.toNat := by omega
    obtain ⟨q, hq⟩ : ∃ q, width.toNat = 2 * q := ⟨width.toNat / 2, by omega⟩
    have hq1 : 1 ≤ q := by omega
    have hmac : numMacros width.toNat = q := by
      rw [numMacros, hq]
      omega
    constructor
    · intro i hi
      simp only [Bool.false_eq_true, if_neg, List.nil_append, List.mem_flatMap,
        List.mem_range, if_false] at hi
      obtain ⟨row, hrow, m, hm, hmem⟩ := hi
      have hrowdiv : row < srcSize / (2 * width.toNat) := by
        have h := hrow
        rw [rowsConverted] at h
        omega
      have hrowmul : (row + 1) * (2 * width.toNat) ≤ srcSize :=
        (Nat.le_div_iff_mul_le (by omega)).mp hrowdiv
      have hexp : (row + 1) * (2 * width.toNat) = row * (2 * width.toNat) + 2 * width.toNat := by
        ring
      rw [hmac] at hm
      simp only [macroReads, List.mem_cons, List.not_mem_nil, or_false] at hmem
      rcases hmem with h | h | h | h <;> omega
    · intro p hp
      simp only [List.mem_flatMap, List.mem_range] at hp
      obtain ⟨row, hrow, m, hm, hmem⟩ := hp
      simp only [macroWrites, List.mem_map, List.mem_range] at hmem
      obtain ⟨o, ho, hpo⟩ := hmem
      have hp1 : p.1 = row * (4 * width.toNat) + 8 * m + o := by
        rw [← hpo]
      have hrowle : row + 1 ≤ rowsConverted srcSize width.toNat height.toNat := hrow
      have hmul : (row + 1) * (4 * width.toNat)
          ≤ rowsConverted srcSize width.toNat height.toNat * (4 * width.toNat) :=
        Nat.mul_le_mul_right _ hrowle
      have hexp : (row + 1) * (4 * width.toNat) = row * (4 * width.toNat) + 4 * width.toNat := by
        ring
      rw [hmac] at hm
      omega

/-- C10 witness: a 2 by 1 image with a 4-byte source, diagnostics off. -/
theorem c10_convert_bounds_witness :
    convertYUY2toRGB32 true false (fun _ => 0) 4 2 1 false
      = { writes := [], reads := [] } ∧
    ((∀ i ∈ (convertYUY2toRGB32 false false (fun _ => 0) 4 2 1 false).reads, i < 4) ∧
      (∀ p ∈ (convertYUY2toRGB32 false false (fun _ => 0) 4 2 1 false).writes,
        p.1 < rowsConverted 4 (2 : Int).toNat (1 : Int).toNat * (4 * (2 : Int).toNat))) :=
  ⟨(c10_convert_bounds (fun _ => 0) 4 2 1).1 true false false (Or.inl rfl),
    (c10_convert_bounds (fun _ => 0) 4 2 1).2 (by decide) (by decide) (by decide)⟩

/-- Indices never written are left at the initial destination value. -/
lemma applyWrites_not_mem (l : List (Nat × Nat)) :
    ∀ (d : Nat → Nat) (i : Nat), (∀ p ∈ l, p.1 ≠ i) → applyWrites d l i = d i := by
  induction l with
  | nil => intro d i _; rfl
  | cons p rest ih =>
    intro d i h
    have hrec := ih (fun j => if j = p.1 then p.2 else d j) i
      (fun p2 hp2 => h p2 (List.mem_cons_of_mem _ hp2))
    rw [applyWrites, hrec]
    show (if i = p.1 then p.2 else d i) = d i
    exact if_neg (fun he => h p (List.mem_cons_self _ _) he.symm)

/-- If every write to index i carries value v and some write hits i,
the final destination byte at i is v. -/
lemma applyWrites_covered (l : List (Nat × Nat)) :
    ∀ (d : Nat → Nat) (i v : Nat), (∀ p ∈ l, p.1 = i → p.2 = v) →
      (∃ p ∈ l, p.1 = i) → applyWrites d l i = v := by
  induction l with
  | nil =>
    intro d i v _ hex
    rcases hex with ⟨p, hp, _⟩
    exact absurd hp (List.not_mem_nil p)
  | cons p rest ih =>
    intro d i v hall hex
    rw [applyWrites]
    by_cases hrest : ∃ p2 ∈ rest, p2.1 = i
    · exact ih _ _ _ (fun p2 hp2 => hall p2 (List.mem_cons_of_mem _ hp2)) hrest
    · have hne : ∀ p2 ∈ rest, p2.1 ≠ i := by
        intro p2 hp2 he
        exact hrest ⟨p2, hp2, he⟩
      rw [applyWrites_not_mem rest _ _ hne]
      show (if i = p.1 then p.2 else d i) = v
      rcases hex with ⟨p0, hp0, hp0i⟩
      rcases List.mem_cons.mp hp0 with he | hmem
      · subst he
        rw [if_pos hp0i.symm]
        exact hall p0 (List.mem_cons_self _ _) hp0i
      · exact absurd hp0i (hne p0 hmem)

/-- On the black pattern every macro-pixel write is 255 at alpha
offsets (index mod 4 = 3) and 0 elsewhere. -/
lemma macroWrites_black_val (w row m : Nat) (p : Nat × Nat)
    (hp : p ∈ macroWrites blackSrc w row m) :
    p.2 = if p.1 % 4 = 3 then 255 else 0 := by
  simp only [macroWrites, List.mem_map, List.mem_range] at hp
  obtain ⟨o, ho, hpe⟩ := hp
  have h2 : row * (2 * w) = 2 * (row * w) := by ring
  have he0 : (row * (2 * w) + 4 * m) % 2 = 0 := by rw [h2]; omega
  have he1 : (row * (2 * w) + 4 * m + 1) % 2 = 1 := by rw [h2]; omega
  have he2 : (row * (2 * w) + 4 * m + 2) % 2 = 0 := by rw [h2]; omega
  have he3 : (row * (2 * w) + 4 * m + 3) % 2 = 1 := by rw [h2]; omega
  have hy0 : blackSrc (row * (2 * w) + 4 * m) = 0 := by
    simp only [blackSrc]
    rw [if_pos he0]
  have hu : blackSrc (row * (2 * w) + 4 * m + 1) = 128 := by
    simp only [blackSrc]
    rw [if_neg (by omega)]
  have hy1 : blackSrc (row * (2 * w) + 4 * m + 2) = 0 := by
    simp only [blackSrc]
    rw [if_pos he2]
  have hv : blackSrc (row * (2 * w) + 4 * m + 3) = 128 := by
    simp only [blackSrc]
    rw [if_neg (by omega)]
  rw [hy0, hu, hy1, hv] at hpe
  subst hpe
  show (macroPixelBytes 0 128 0 128).getD o 0
      = if (row * (4 * w) + 8 * m + o) % 4 = 3 then 255 else 0
  have h4 : (row * (4 * w) + 8 * m + o) % 4 = o % 4 := by
    have h44 : row * (4 * w) = 4 * (row * w) := by ring
    rw [h44]; omega
  rw [h4]
  interval_cases o <;> decide

/-- On the white pattern every macro-pixel write is 255. -/
lemma macroWrites_white_val (w row m : Nat) (p : Nat × Nat)
    (hp : p ∈ macroWrites whiteSrc w row m) : p.2 = 255 := by
  simp only [macroWrites, List.mem_map, List.mem_range] at hp
  obtain ⟨o, ho, hpe⟩ := hp
  have h2 : row * (2 * w) = 2 * (row * w) := by ring
  have he0 : (row * (2 * w) + 4 * m) % 2 = 0 := by rw [h2]; omega
  have he2 : (row * (2 * w) + 4 * m + 2) % 2 = 0 := by rw [h2]; omega
  have hy0 : whiteSrc (row * (2 * w) + 4 * m) = 235 := by
    simp only [whiteSrc]
    rw [if_pos he0]
  have hu : whiteSrc (row * (2 * w) + 4 * m + 1) = 128 := by
    simp only [whiteSrc]
    rw [if_neg (by rw [h2]; omega)]
  have hy1 : whiteSrc (row * (2 * w) + 4 * m + 2) = 235 := by
    simp only [whiteSrc]
    rw [if_pos he2]
  have hv : whiteSrc (row * (2 * w) + 4 * m + 3) = 128 := by
    simp only [whiteSrc]
    rw [if_neg (by rw [h2]; omega)]
  rw [hy0, hu, hy1, hv] at hpe
  subst hpe
  show (macroPixelBytes 235 128 235 128).getD o 0 = 255
  interval_cases o <;> decide

/-- For any source, every macro-pixel write at an alpha offset
(destination index mod 4 = 3) carries the byte 255. -/
lemma macroWrites_alpha (src : Nat → Nat) (w row m : Nat) (p : Nat × Nat)
    (hp : p ∈ macroWrites src w row m) (ha : p.1 % 4 = 3) : p.2 = 255 := by
  simp only [macroWrites, List.mem_map, List.mem_range] at hp
  obtain ⟨o, ho, hpe⟩ := hp
  subst hpe
  have h4 : (row * (4 * w) + 8 * m + o) % 4 = o % 4 := by
    have h44 : row * (4 * w) = 4 * (row * w) := by ring
    rw [h44]; omega
  have ha2 : o % 4 = 3 := by rw [← h4]; exact ha
  show (macroPixelBytes (src (row * (2 * w) + 4 * m)) (src (row * (2 * w) + 4 * m + 1))
      (src (row * (2 * w) + 4 * m + 2)) (src (row * (2 * w) + 4 * m + 3))).getD o 0 = 255
  interval_cases o
  all_goals first
  | rfl
  | exact absurd ha2 (by decide)

/-- The non-error converter writes list in explicit flatMap form. -/
lemma convert_writes_eq (src : Nat → Nat) (s : Nat) (width height : Int)
    (hw : 0 < width) (hh : 0 < height) :
    (convertYUY2toRGB32 false false src s width height false).writes
      = (List.range (rowsConverted s width.toNat height.toNat)).flatMap
          (fun row => (List.range (numMacros width.toNat)).flatMap
            (fun m => macroWrites src width.toNat row m)) := by
  rw [convertYUY2toRGB32,
    if_neg (by simp only [Bool.false_eq_true, false_or, not_or, not_le]; exact ⟨hw, hh⟩)]

/-- With a source of exactly 2 * w * h bytes every row is converted. -/
lemma rowsConverted_full (w h : Nat) (hw : 0 < w) :
    rowsConverted (2 * w * h) w h = h := by
  rw [rowsConverted, Nat.mul_div_cancel_left h (show 0 < 2 * w by omega)]
  exact Nat.min_self h

/-- Coverage: with even width 2 * q, every destination index below
R * (4 * width) is hit by some write of the first R rows. -/
lemma convert_writes_cover (src : Nat → Nat) (q R i : Nat)
    (hi : i < R * (4 * (2 * q))) :
    ∃ p ∈ (List.range R).flatMap
        (fun row => (List.range (numMacros (2 * q))).flatMap
          (fun m => macroWrites src (2 * q) row m)), p.1 = i := by
  rcases Nat.eq_zero_or_pos q with rfl | hq0
  · simp at hi
  have h8 : 0 < 8 * q := by omega
  have h4w : 4 * (2 * q) = 8 * q := by ring
  rw [h4w] at hi
  have hmacq : numMacros (2 * q) = q := by rw [numMacros]; omega
  have hrowR : i / (8 * q) < R := (Nat.div_lt_iff_lt_mul h8).mpr hi
  have hremlt : i % (8 * q) < 8 * q := Nat.mod_lt _ h8
  have hmq : i % (8 * q) / 8 < q :=
    (Nat.div_lt_iff_lt_mul (show 0 < 8 by omega)).mpr (by omega)
  have ho8 : i % (8 * q) % 8 < 8 := Nat.mod_lt _ (by omega)
  have e1 : 8 * q * (i / (8 * q)) + i % (8 * q) = i := Nat.div_add_mod i (8 * q)
  have e2 : 8 * (i % (8 * q) / 8) + i % (8 * q) % 8 = i % (8 * q) :=
    Nat.div_add_mod (i % (8 * q)) 8
  have hidx : i / (8 * q) * (4 * (2 * q)) + 8 * (i % (8 * q) / 8) + i % (8 * q) % 8
      = i := by
    rw [Nat.add_assoc, e2, h4w, Nat.mul_comm (i / (8 * q)) (8 * q)]
    exact e1
  have hmem : ((i / (8 * q) * (4 * (2 * q)) + 8 * (i % (8 * q) / 8) + i % (8 * q) % 8,
      (macroPixelBytes
        (src (i / (8 * q) * (2 * (2 * q)) + 4 * (i % (8 * q) / 8)))
        (src (i / (8 * q) * (2 * (2 * q)) + 4 * (i % (8 * q) / 8) + 1))
        (src (i / (8 * q) * (2 * (2 * q)) + 4 * (i % (8 * q) / 8) + 2))
        (src (i / (8 * q) * (2 * (2 * q)) + 4 * (i % (8 * q) / 8) + 3))).getD
          (i % (8 * q) % 8) 0) : Nat × Nat)
      ∈ macroWrites src (2 * q) (i / (8 * q)) (i % (8 * q) / 8) := by
    simp only [macroWrites, List.mem_map, List.mem_range]
    exact ⟨i % (8 * q) % 8, ho8, rfl⟩
  have hmem2 : ((i / (8 * q) * (4 * (2 * q)) + 8 * (i % (8 * q) / 8) + i % (8 * q) % 8,
      (macroPixelBytes
        (src (i / (8 * q) * (2 * (2 * q)) + 4 * (i % (8 * q) / 8)))
        (src (i / (8 * q) * (2 * (2 * q)) + 4 * (i % (8 * q) / 8) + 1))
        (src (i / (8 * q) * (2 * (2 * q)) + 4 * (i % (8 * q) / 8) + 2))
        (src (i / (8 * q) * (2 * (2 * q)) + 4 * (i % (8 * q) / 8) + 3))).getD
          (i % (8 * q) % 8) 0) : Nat × Nat)
      ∈ (List.range R).flatMap
        (fun row => (List.range (numMacros (2 * q))).flatMap
          (fun m => macroWrites src (2 * q) row m)) := by
    simp only [List.mem_flatMap, List.mem_range]
    exact ⟨i / (8 * q), hrowR, i % (8 * q) / 8, by rw [hmacq]; exact hmq, hmem⟩
  exact ⟨_, hmem2, hidx⟩

/-- C8: for a frame of the negotiated dimensions (source size exactly
width * height * 2, even width), decoding the repeated YUY2 black
pattern 00 80 00 80 writes 255 at every alpha byte and 0 (hence at
most 5) at every B, G and R byte of the 4 * width * height destination
bytes; decoding the white pattern Y = 235, U = V = 128 writes 255
everywhere (hence at least 250 at every colour byte); and for every
source frame each write at an alpha offset carries the byte 255. -/
theorem c8_black_white_frames (d : Nat → Nat) (width height : Int)
    (hw : 0 < width) (hh : 0 < height) (heven : width.toNat % 2 = 0) :
    (∀ i < height.toNat * (4 * width.toNat),
      (i % 4 = 3 →
        applyWrites d (convertYUY2toRGB32 false false blackSrc
          (2 * width.toNat * height.toNat) width height false).writes i = 255) ∧
      (i % 4 ≠ 3 →
        applyWrites d (convertYUY2toRGB32 false false blackSrc
          (2 * width.toNat * height.toNat) width height false).writes i ≤ 5)) ∧
    (∀ i < height.toNat * (4 * width.toNat),
      (i % 4 = 3 →
        applyWrites d (convertYUY2toRGB32 false false whiteSrc
          (2 * width.toNat * height.toNat) width height false).writes i = 255) ∧
      (i % 4 ≠ 3 →
        250 ≤ applyWrites d (convertYUY2toRGB32 false false whiteSrc
          (2 * width.toNat * height.toNat) width height false).writes i)) ∧
    (∀ src : Nat → Nat, ∀ p ∈ (convertYUY2toRGB32 false false src
        (2 * width.toNat * height.toNat) width height false).writes,
      p.1 % 4 = 3 → p.2 = 255) := by
  have hwp : 0 < width.toNat := by omega
  obtain ⟨q, hq⟩ : ∃ q, width.toNat = 2 * q := ⟨width.toNat / 2, by omega⟩
  have hrows : rowsConverted (2 * width.toNat * height.toNat) width.toNat height.toNat
      = height.toNat := rowsConverted_full _ _ hwp
  refine ⟨?_, ?_, ?_⟩
  · intro i hi
    have hcov : ∃ p ∈ (List.range (rowsConverted (2 * width.toNat * height.toNat)
          width.toNat height.toNat)).flatMap
        (fun row => (List.range (numMacros width.toNat)).flatMap
          (fun m => macroWrites blackSrc width.toNat row m)), p.1 = i := by
      rw [hrows, hq]
      exact convert_writes_cover blackSrc q height.toNat i (by rw [← hq]; exact hi)
    have hall : ∀ p ∈ (List.range (rowsConverted (2 * width.toNat * height.toNat)
          width.toNat height.toNat)).flatMap
        (fun row => (List.range (numMacros width.toNat)).flatMap
          (fun m => macroWrites blackSrc width.toNat row m)),
        p.1 = i → p.2 = if i % 4 = 3 then 255 else 0 := by
      intro p hp hpi
      simp only [List.mem_flatMap, List.mem_range] at hp
      obtain ⟨row, _, m, _, hpm⟩ := hp
      rw [← hpi]
      exact macroWrites_black_val width.toNat row m p hpm
    have hout : applyWrites d (convertYUY2toRGB32 false false blackSrc
        (2 * width.toNat * height.toNat) width height false).writes i
        = if i % 4 = 3 then 255 else 0 := by
      rw [convert_writes_eq blackSrc _ width height hw hh]
      exact applyWrites_covered _ d i _ hall hcov
    constructor
    · intro h3
      rw [hout, if_pos h3]
    · intro h3
      rw [hout, if_neg h3]
      omega
  · intro i hi
    have hcov : ∃ p ∈ (List.range (rowsConverted (2 * width.toNat * height.toNat)
          width.toNat height.toNat)).flatMap
        (fun row => (List.range (numMacros width.toNat)).flatMap
          (fun m => macroWrites whiteSrc width.toNat row m)), p.1 = i := by
      rw [hrows, hq]
      exact convert_writes_cover whiteSrc q height.toNat i (by rw [← hq]; exact hi)
    have hall : ∀ p ∈ (List.range (rowsConverted (2 * width.toNat * height.toNat)
          width.toNat height.toNat)).flatMap
        (fun row => (List.range (numMacros width.toNat)).flatMap
          (fun m => macroWrites whiteSrc width.toNat row m)),
        p.1 = i → p.2 = 255 := by
      intro p hp _
      simp only [List.mem_flatMap, List.mem_range] at hp
      obtain ⟨row, _, m, _, hpm⟩ := hp
      exact macroWrites_white_val width.toNat row m p hpm
    have hout : applyWrites d (convertYUY2toRGB32 false false whiteSrc
        (2 * width.toNat * height.toNat) width height false).writes i = 255 := by
      rw [convert_writes_eq whiteSrc _ width height hw hh]
      exact applyWrites_covered _ d i _ hall hcov
    constructor
    · intro _
      exact hout
    · intro _
      rw [hout]
      omega
  · intro src p hp h3
    rw [convert_writes_eq src _ width height hw hh] at hp
    simp only [List.mem_flatMap, List.mem_range] at hp
    obtain ⟨row, _, m, _, hpm⟩ := hp
    exact macroWrites_alpha src width.toNat row m p hpm h3

/-- C8 witness: a 2 by 1 frame, destination prefilled with 7: the black
decode gives alpha 255 at index 3 and a colour byte at index 0 at most
5, the white decode a colour byte at index 2 at least 250. -/
theorem c8_black_white_frames_witness :
    applyWrites (fun _ => 7) (convertYUY2toRGB32 false false blackSrc
      (2 * (2 : Int).toNat * (1 : Int).toNat) 2 1 false).writes 3 = 255 ∧
    applyWrites (fun _ => 7) (convertYUY2toRGB32 false false blackSrc
      (2 * (2 : Int).toNat * (1 : Int).toNat) 2 1 false).writes 0 ≤ 5 ∧
    250 ≤ applyWrites (fun _ => 7) (convertYUY2toRGB32 false false whiteSrc
      (2 * (2 : Int).toNat * (1 : Int).toNat) 2 1 false).writes 2 :=
  ⟨((c8_black_white_frames (fun _ => 7) 2 1 (by decide) (by decide) (by decide)).1
      3 (by decide)).1 (by decide),
    ((c8_black_white_frames (fun _ => 7) 2 1 (by decide) (by decide) (by decide)).1
      0 (by decide)).2 (by decide),
    ((c8_black_white_frames (fun _ => 7) 2 1 (by decide) (by decide) (by decide)).2.1
      2 (by decide)).2 (by decide)⟩

end HaikuUVC
